import Mathlib

/-!
Shallow embedding of the scheduler core of the student-information-system
repository (services/scheduler), together with proofs about the constraint
generation, solution extraction, input validation and persistence layers.

Conventions of the embedding:
* opaque UUIDs become `Nat` identifiers (only equality is ever used on them);
* `datetime.time` values become minutes-since-midnight (`Nat`); the source's
  `t.hour * 60 + t.minute` is then the value itself, and comparison of times
  is numeric comparison;
* Python dicts become association lists in insertion order, looked up with
  `dictGet` (first match), and Python sets become duplicate-free lists in
  first-occurrence order (`dedupFirst`);
* CP-SAT variables become symbolic keys (`VarKey`); `NewConstant` becomes a
  literal constant; every emitted constraint is a value of the deep syntax
  `Cons`, and a solution is a valuation `VarKey → Int` checked by
  `Cons.check`;
* Python floats that the source immediately converts to integers
  (credit hours and loads scaled by 10, constraint weights passed to `int`)
  are carried as the already-converted `Int`;
* a raised Python exception becomes `Except.error`.
-/

namespace Scheduler

/-- Association-list lookup, first match wins (Python `dict.get`). -/
def dictGet {κ β : Type} [DecidableEq κ] : List (κ × β) → κ → Option β
  | [], _ => none
  | (k, v) :: rest, a => if k = a then some v else dictGet rest a

/-- Lookup where the latest binding wins (Python dict comprehension from
rows, where a repeated key is overwritten by the later row). -/
def dictGetLast {κ β : Type} [DecidableEq κ] (l : List (κ × β)) (a : κ) : Option β :=
  dictGet l.reverse a

/-- Remove duplicates keeping the first occurrence (canonical iteration
order chosen for Python `set`s built by successive insertion). -/
def dedupAux : List Nat → List Nat → List Nat
  | [], _ => []
  | x :: xs, seen => if x ∈ seen then dedupAux xs seen else x :: dedupAux xs (x :: seen)

/-- Duplicate-free list in first-occurrence order. -/
def dedupFirst (l : List Nat) : List Nat := dedupAux l []

/-- All unordered pairs of a list, in nested-loop order
(`for i, a in enumerate(l): for b in l[i+1:]`). -/
def pairsOf {α : Type} : List α → List (α × α)
  | [] => []
  | x :: xs => xs.map (fun y => (x, y)) ++ pairsOf xs

/-- A single day/time occurrence within a meeting pattern
(`MeetingTime` in models/domain.py); times are minutes since midnight. -/
structure MeetingTime where
  day_of_week : Nat
  start_time : Nat
  end_time : Nat
deriving DecidableEq, Repr

/-- A reusable weekly meeting pattern (`MeetingPattern`). -/
structure MeetingPattern where
  id : Nat
  times : List MeetingTime
deriving DecidableEq, Repr

/-- A schedulable room (`Room`); only the fields the solver reads. -/
structure Room where
  id : Nat
  capacity : Nat
  features : List Nat
deriving DecidableEq, Repr

/-- Preference levels following the UniTime model (`PreferenceLevel`). -/
inductive PreferenceLevel where
  | prohibited
  | discouraged
  | neutral
  | preferred
  | required
deriving DecidableEq, Repr

/-- A time preference of an instructor (`InstructorPreference`). -/
structure InstructorPreference where
  day_of_week : Option Nat
  start_time : Option Nat
  end_time : Option Nat
  meeting_pattern_id : Option Nat
  preference_level : PreferenceLevel
deriving DecidableEq, Repr

/-- An instructor (`Instructor`); loads are carried already scaled by 10
(the source stores floats and multiplies by 10 before `int`). -/
structure Instructor where
  id : Nat
  min_load_x10 : Int
  max_load_x10 : Int
  target_load_x10 : Option Int
  time_preferences : List InstructorPreference
deriving DecidableEq, Repr

/-- A course (`Course`); only the required room features are read. -/
structure Course where
  id : Nat
  required_room_features : List Nat
deriving DecidableEq, Repr

/-- A section to be scheduled (`Section` in models/domain.py).
`allowed_meeting_pattern_ids`/`allowed_room_ids` are `Option` to model
`frozenset | None`; credit hours are carried scaled by 10. -/
structure Section where
  id : Nat
  course_id : Nat
  expected_enrollment : Nat
  credit_hours_x10 : Int
  allowed_meeting_pattern_ids : Option (List Nat)
  allowed_room_ids : Option (List Nat)
  required_room_features : List Nat
  preferred_instructor_ids : List Nat
  assigned_instructor_ids : List Nat
  cross_list_group_id : Option Nat
  link_group_id : Option Nat
  is_link_parent : Bool
  fixed_meeting_pattern_id : Option Nat
  fixed_room_id : Option Nat
  fixed_date_pattern_id : Option Nat
deriving DecidableEq, Repr

/-- The problem instance handed to the solver (`SolverInput`);
`date_patterns` keeps only the pattern ids (the solver reads nothing
else), `constraint_weights` carries the already-truncated integer
weights, `constraint_options` the string options. -/
structure SolverInput where
  meeting_patterns : List MeetingPattern
  date_patterns : List Nat
  rooms : List Room
  instructors : List Instructor
  courses : List Course
  sections : List Section
  constraint_weights : List (String × Int)
  constraint_options : List (String × String)
deriving DecidableEq, Repr

/-- `weights.get(code, default)` followed by `int(...)`. -/
def wget (w : List (String × Int)) (k : String) (d : Int) : Int :=
  (dictGet w k).getD d

/-- Python truthiness of an `Optional[frozenset]`: falsy iff `None` or
empty. -/
def pyTruthy : Option (List Nat) → Bool
  | none => false
  | some l => !l.isEmpty

/-- Symbolic names of the CP-SAT decision variables created by the solver:
pattern, room, room-pattern product, instructor variables, the Boolean
preference-penalty indicators, and the integer workload variables. -/
inductive VarKey where
  | sp (s p : Nat)
  | sr (s r : Nat)
  | srp (s r p : Nat)
  | si (s i : Nat)
  | pref (s i p idx : Nat)
  | load (i : Nat)
  | under (i : Nat)
  | over (i : Nat)
  | dev (i : Nat)
deriving DecidableEq, Repr

/-- A model literal: a decision variable or a `NewConstant`. -/
inductive Lit where
  | var (k : VarKey)
  | const (c : Int)
deriving DecidableEq, Repr

/-- A candidate solution assigns an integer to every variable name. -/
abbrev Valuation := VarKey → Int

/-- Value of a literal under a valuation (`solver.Value`). -/
def Lit.eval (σ : Valuation) : Lit → Int
  | .var k => σ k
  | .const c => c

/-- Deep syntax of the constraints the generators emit. -/
inductive Cons where
  | linLe (ts : List (Int × Lit)) (c : Int)
  | linGe (ts : List (Int × Lit)) (c : Int)
  | linEq (ts : List (Int × Lit)) (c : Int)
  | exactlyOne (ls : List Lit)
  | atMostOne (ls : List Lit)
  | mulEq (z a b : Lit)
  | absEq (z : Lit) (ts : List (Int × Lit)) (c : Int)
  | range (l : Lit) (lo hi : Int)
deriving DecidableEq, Repr

/-- Value of a linear form `Σ coeff·lit` under a valuation. -/
def lsum (σ : Valuation) (ts : List (Int × Lit)) : Int :=
  (ts.map (fun t => t.1 * t.2.eval σ)).sum

/-- Whether a valuation satisfies one constraint. -/
def Cons.check (σ : Valuation) : Cons → Bool
  | .linLe ts c => decide (lsum σ ts ≤ c)
  | .linGe ts c => decide (c ≤ lsum σ ts)
  | .linEq ts c => decide (lsum σ ts = c)
  | .exactlyOne ls => decide ((ls.map (Lit.eval σ)).sum = 1)
  | .atMostOne ls => decide ((ls.map (Lit.eval σ)).sum ≤ 1)
  | .mulEq z a b => decide (z.eval σ = a.eval σ * b.eval σ)
  | .absEq z ts c => decide (z.eval σ = |lsum σ ts + c|)
  | .range l lo hi => decide (lo ≤ l.eval σ) && decide (l.eval σ ≤ hi)

/-- Whether a valuation satisfies every constraint of a list. -/
def satisfies (σ : Valuation) (cs : List Cons) : Bool :=
  cs.all (Cons.check σ)

/-- `model.Add(sum(vars) <= k)`. -/
def consSumLe (ls : List Lit) (k : Int) : Cons :=
  .linLe (ls.map (fun l => (1, l))) k

/-- `model.Add(a == b)`. -/
def consEqLits (a b : Lit) : Cons :=
  .linEq [(1, a), (-1, b)] 0

/-- `model.Add(v == 0)`. -/
def consEqZero (a : Lit) : Cons :=
  .linEq [(1, a)] 0

/-- `model.Add(sum(vars) >= v)`. -/
def consSumGeLit (ls : List Lit) (v : Lit) : Cons :=
  .linGe (ls.map (fun l => (1, l)) ++ [(-1, v)]) 0

/-- Candidate pattern ids of a section
(`set(section.allowed_meeting_pattern_ids) if section.allowed_meeting_pattern_ids
else {p.id for p in self.input.meeting_patterns}` in `_create_variables`):
the Python truthiness test makes `None` and the empty set both fall back to
all input patterns. -/
def candidatePatternIds (inp : SolverInput) (s : Section) : List Nat :=
  if pyTruthy s.allowed_meeting_pattern_ids then s.allowed_meeting_pattern_ids.getD []
  else inp.meeting_patterns.map (·.id)

/-- Candidate room ids of a section, analogous fallback. -/
def candidateRoomIds (inp : SolverInput) (s : Section) : List Nat :=
  if pyTruthy s.allowed_room_ids then s.allowed_room_ids.getD []
  else inp.rooms.map (·.id)

/-- The literal stored in `section_pattern_vars[(s.id, pid)]`: a constant
when the section has a fixed meeting pattern, a fresh Boolean otherwise. -/
def patternLitFor (s : Section) (pid : Nat) : Lit :=
  match s.fixed_meeting_pattern_id with
  | some f => .const (if pid = f then 1 else 0)
  | none => .var (.sp s.id pid)

/-- The literal stored in `section_room_vars[(s.id, rid)]`. -/
def roomLitFor (s : Section) (rid : Nat) : Lit :=
  match s.fixed_room_id with
  | some f => .const (if rid = f then 1 else 0)
  | none => .var (.sr s.id rid)

/-- Domain constraint of a `NewBoolVar`. -/
def boolVarRange (k : VarKey) : Cons := .range (.var k) 0 1

/-- Entries this section contributes to `section_pattern_vars`. -/
def sp_entries_for (inp : SolverInput) (s : Section) : List ((Nat × Nat) × Lit) :=
  (candidatePatternIds inp s).map (fun pid => ((s.id, pid), patternLitFor s pid))

/-- Entries this section contributes to `section_room_vars`. -/
def sr_entries_for (inp : SolverInput) (s : Section) : List ((Nat × Nat) × Lit) :=
  (candidateRoomIds inp s).map (fun rid => ((s.id, rid), roomLitFor s rid))

/-- Entries this section contributes to `section_room_pattern_vars`,
keyed `(section, (room, pattern))`, pattern loop outside room loop as in
the source. -/
def srp_entries_for (inp : SolverInput) (s : Section) :
    List ((Nat × (Nat × Nat)) × Lit) :=
  (candidatePatternIds inp s).flatMap (fun pid =>
    (candidateRoomIds inp s).map (fun rid => ((s.id, (rid, pid)), Lit.var (.srp s.id rid pid))))

/-- `set(preferred_instructor_ids) - set(assigned_instructor_ids)`. -/
def potentialInstructorIds (s : Section) : List Nat :=
  (dedupFirst s.preferred_instructor_ids).filter (fun i => decide (i ∉ s.assigned_instructor_ids))

/-- Entries this section contributes to `section_instructor_vars`
(pre-assigned instructors get no variable). -/
def si_entries_for (s : Section) : List ((Nat × Nat) × Lit) :=
  (potentialInstructorIds s).map (fun iid => ((s.id, iid), Lit.var (.si s.id iid)))

/-- Constraints emitted while creating this section's variables: Boolean
domains for each fresh variable and the product equality
`z = x_pattern AND y_room` (`AddMultiplicationEquality`). -/
def creation_cons_for (inp : SolverInput) (s : Section) : List Cons :=
  (if s.fixed_meeting_pattern_id.isSome then []
   else (candidatePatternIds inp s).map (fun pid => boolVarRange (.sp s.id pid)))
  ++ (if s.fixed_room_id.isSome then []
      else (candidateRoomIds inp s).map (fun rid => boolVarRange (.sr s.id rid)))
  ++ ((candidatePatternIds inp s).flatMap (fun pid =>
       (candidateRoomIds inp s).flatMap (fun rid =>
         boolVarRange (.srp s.id rid pid) ::
           (match dictGet (sp_entries_for inp s) (s.id, pid),
                  dictGet (sr_entries_for inp s) (s.id, rid) with
            | some pl, some rl => [Cons.mulEq (Lit.var (.srp s.id rid pid)) pl rl]
            | _, _ => []))))
  ++ (potentialInstructorIds s).map (fun iid => boolVarRange (.si s.id iid))

/-- The four variable dictionaries plus the constraints emitted during
variable creation (`CPSATSolver._create_variables`). -/
structure VarTables where
  sp : List ((Nat × Nat) × Lit)
  sr : List ((Nat × Nat) × Lit)
  srp : List ((Nat × (Nat × Nat)) × Lit)
  si : List ((Nat × Nat) × Lit)
  cons : List Cons
deriving DecidableEq, Repr

/-- `CPSATSolver._create_variables`. -/
def create_variables (inp : SolverInput) : VarTables :=
  { sp := inp.sections.flatMap (sp_entries_for inp)
    sr := inp.sections.flatMap (sr_entries_for inp)
    srp := inp.sections.flatMap (srp_entries_for inp)
    si := inp.sections.flatMap si_entries_for
    cons := inp.sections.flatMap (creation_cons_for inp) }

/-- `CPSATSolver._add_assignment_constraints`: exactly one pattern and one
room per section (when candidates exist), at most one chosen instructor
when none is pre-assigned. -/
def add_assignment_constraints (inp : SolverInput) (vt : VarTables) : List Cons :=
  inp.sections.flatMap fun s =>
    let patVars := inp.meeting_patterns.filterMap (fun p => dictGet vt.sp (s.id, p.id))
    let roomVars := inp.rooms.filterMap (fun r => dictGet vt.sr (s.id, r.id))
    (if patVars.isEmpty then [] else [Cons.exactlyOne patVars])
    ++ (if roomVars.isEmpty then [] else [Cons.exactlyOne roomVars])
    ++ (if s.assigned_instructor_ids.isEmpty then
          let instVars := s.preferred_instructor_ids.filterMap
            (fun iid => dictGet vt.si (s.id, iid))
          if instVars.isEmpty then [] else [Cons.atMostOne instVars]
        else [])

/-- `_patterns_overlap`: common day with intersecting open time intervals. -/
def patterns_overlap (p1 p2 : MeetingPattern) : Bool :=
  p1.times.any fun t1 => p2.times.any fun t2 =>
    decide (t1.day_of_week = t2.day_of_week
      ∧ t1.start_time < t2.end_time ∧ t2.start_time < t1.end_time)

/-- `overlapping_patterns[p1.id]`: ids of the distinct patterns
overlapping `p1`. -/
def overlap_ids (pats : List MeetingPattern) (p1 : MeetingPattern) : List Nat :=
  (pats.filter (fun p2 => decide (p1.id ≠ p2.id) && patterns_overlap p1 p2)).map (·.id)

/-- `room_section_by_pattern[pattern_id]` for one room: the product
variables of the sections that could use this room at this pattern. -/
def room_section_by_pattern (inp : SolverInput) (vt : VarTables) (rid pid : Nat) : List Lit :=
  inp.sections.filterMap (fun s => dictGet vt.srp (s.id, (rid, pid)))

/-- `tuple(sorted([pattern_id, overlap_id]))`. -/
def canonPair (a b : Nat) : Nat × Nat := if a ≤ b then (a, b) else (b, a)

/-- Deduplicate ordered pairs by their canonical (sorted) form, keeping
the orientation of the first encounter (`processed_pairs` in the source). -/
def dedupPairs : List (Nat × Nat) → List (Nat × Nat) → List (Nat × Nat)
  | [], _ => []
  | (a, b) :: rest, seen =>
    if canonPair a b ∈ seen then dedupPairs rest seen
    else (a, b) :: dedupPairs rest (canonPair a b :: seen)

/-- The deduplicated overlapping pattern-id pairs, in the nested loop
order of the source. -/
def overlapPairs (pats : List MeetingPattern) : List (Nat × Nat) :=
  dedupPairs (pats.flatMap (fun p1 => (overlap_ids pats p1).map (fun q => (p1.id, q)))) []

/-- `add_room_conflict_constraints`: at most one section per (room, pattern)
and at most one section per room across each overlapping pattern pair. -/
def add_room_conflict_constraints (inp : SolverInput) (vt : VarTables) : List Cons :=
  inp.rooms.flatMap fun room =>
    (inp.meeting_patterns.flatMap fun p =>
       let ls := room_section_by_pattern inp vt room.id p.id
       if ls.length > 1 then [consSumLe ls 1] else [])
    ++ ((overlapPairs inp.meeting_patterns).flatMap (fun pq =>
         let v1 := room_section_by_pattern inp vt room.id pq.1
         let v2 := room_section_by_pattern inp vt room.id pq.2
         if !v1.isEmpty && !v2.isEmpty then [consSumLe (v1 ++ v2) 1] else []))

/-- Every instructor id appearing as assigned or preferred in any section
(`all_instructor_ids` in `add_instructor_conflict_constraints`). -/
def all_instructor_ids (inp : SolverInput) : List Nat :=
  dedupFirst (inp.sections.flatMap (fun s => s.assigned_instructor_ids ++ s.preferred_instructor_ids))

/-- Sections that could use this instructor: a decision variable exists or
the instructor is pre-assigned. -/
def instructor_sections_for (inp : SolverInput) (vt : VarTables) (iid : Nat) : List Section :=
  inp.sections.filter (fun s =>
    (dictGet vt.si (s.id, iid)).isSome || decide (iid ∈ s.assigned_instructor_ids))

/-- Sequence a constraint-emitting function over a list, short-circuiting
on the first error (a raised Python exception aborts generation). -/
def exceptFlat {E α : Type} (f : α → Except E (List Cons)) : List α → Except E (List Cons)
  | [] => .ok []
  | x :: xs =>
    match f x with
    | .error e => .error e
    | .ok cs =>
      match exceptFlat f xs with
      | .error e => .error e
      | .ok rest => .ok (cs ++ rest)

/-- The inner double pattern loop of `add_instructor_conflict_constraints`
for one instructor and one section pair.  When the instructor is
pre-assigned to the first section the source adds
`var_s1_p1 + var_s2_p2 + var_s2_inst` without checking that
`var_s2_inst` exists; a missing variable is `None` there and ortools'
`LinearExpr.__add__` raises `TypeError` on it, which this embedding
renders as `Except.error`. -/
def conflict_for_pair (vt : VarTables) (pats : List MeetingPattern) (iid : Nat)
    (s1 s2 : Section) : Except String (List Cons) :=
  exceptFlat (fun p1 : MeetingPattern =>
    exceptFlat (fun p2id : Nat =>
      match dictGet vt.sp (s1.id, p1.id), dictGet vt.sp (s2.id, p2id) with
      | some v1, some v2 =>
        match dictGet vt.si (s1.id, iid), dictGet vt.si (s2.id, iid) with
        | some w1, some w2 => .ok [consSumLe [v1, v2, w1, w2] 3]
        | w1, w2 =>
          if iid ∈ s1.assigned_instructor_ids then
            match w2 with
            | some b => .ok [consSumLe [v1, v2, b] 2]
            | none => .error "TypeError: unsupported operand, adding None to a linear expression"
          else if iid ∈ s2.assigned_instructor_ids then
            match w1 with
            | some a => .ok [consSumLe [v1, v2, a] 2]
            | none => .error "TypeError: unsupported operand, adding None to a linear expression"
          else .ok []
      | _, _ => .ok []) (overlap_ids pats p1)) pats

/-- `add_instructor_conflict_constraints`. -/
def add_instructor_conflict_constraints (inp : SolverInput) (vt : VarTables) :
    Except String (List Cons) :=
  exceptFlat (fun iid =>
    let iSecs := instructor_sections_for inp vt iid
    if iSecs.length < 2 then .ok []
    else exceptFlat (fun s12 => conflict_for_pair vt inp.meeting_patterns iid s12.1 s12.2)
      (pairsOf iSecs))
    (all_instructor_ids inp)

/-- `add_room_capacity_constraints`: forbid-as-zero for rooms that are too
small. -/
def add_room_capacity_constraints (inp : SolverInput) (vt : VarTables) : List Cons :=
  inp.sections.flatMap fun s =>
    inp.rooms.flatMap fun room =>
      match dictGet vt.sr (s.id, room.id) with
      | some v => if room.capacity < s.expected_enrollment then [consEqZero v] else []
      | none => []

/-- `courses.get(course_id, set())` over the course-features dictionary. -/
def course_required_features (inp : SolverInput) (cid : Nat) : List Nat :=
  match inp.courses.find? (fun c => c.id = cid) with
  | some c => c.required_room_features
  | none => []

/-- Union of the section's and its course's required features. -/
def section_required_features (inp : SolverInput) (s : Section) : List Nat :=
  dedupFirst (s.required_room_features ++ course_required_features inp s.course_id)

/-- `add_room_feature_constraints`: forbid rooms missing a required
feature. -/
def add_room_feature_constraints (inp : SolverInput) (vt : VarTables) : List Cons :=
  inp.sections.flatMap fun s =>
    let req := section_required_features inp s
    if req.isEmpty then []
    else inp.rooms.flatMap fun room =>
      match dictGet vt.sr (s.id, room.id) with
      | none => []
      | some v => if req.all (fun f => decide (f ∈ room.features)) then [] else [consEqZero v]

/-- Cross-list group ids in first-occurrence order. -/
def cross_list_group_ids (inp : SolverInput) : List Nat :=
  dedupFirst (inp.sections.filterMap (·.cross_list_group_id))

/-- The sections carrying this cross-list group id, in input order. -/
def sections_in_group (inp : SolverInput) (g : Nat) : List Section :=
  inp.sections.filter (fun s => s.cross_list_group_id = some g)

/-- `{pid for (sid, pid) in vars.keys() if sid == section.id}`. -/
def map_pids_for (m : List ((Nat × Nat) × Lit)) (sid : Nat) : List Nat :=
  dedupFirst (m.filterMap (fun e => if e.1.1 = sid then some e.1.2 else none))

/-- `add_cross_list_constraints`: equate anchor and non-anchor variables on
the candidate ids common to both; ids outside the intersection are left
untouched. -/
def add_cross_list_constraints (inp : SolverInput) (vt : VarTables) : List Cons :=
  (cross_list_group_ids inp).flatMap fun g =>
    let gs := sections_in_group inp g
    if gs.length < 2 then []
    else
      match gs with
      | [] => []
      | anchor :: others =>
        others.flatMap fun other =>
          let commonP := (map_pids_for vt.sp anchor.id).filter
            (fun pid => decide (pid ∈ map_pids_for vt.sp other.id))
          let commonR := (map_pids_for vt.sr anchor.id).filter
            (fun rid => decide (rid ∈ map_pids_for vt.sr other.id))
          (commonP.flatMap fun pid =>
            match dictGet vt.sp (anchor.id, pid), dictGet vt.sp (other.id, pid) with
            | some a, some b => [consEqLits a b]
            | _, _ => [])
          ++ (commonR.flatMap fun rid =>
            match dictGet vt.sr (anchor.id, rid), dictGet vt.sr (other.id, rid) with
            | some a, some b => [consEqLits a b]
            | _, _ => [])

/-- `pattern_by_id.get(pid)`. -/
def pattern_by_id (pats : List MeetingPattern) (pid : Nat) : Option MeetingPattern :=
  pats.find? (fun p => p.id = pid)

/-- `_get_pattern_days`. -/
def get_pattern_days (p : MeetingPattern) : List Nat :=
  dedupFirst (p.times.map (·.day_of_week))

/-- `_patterns_compatible_immediately_after`: some common day on which a
child start follows a parent end by a gap in `[0, max_gap_minutes]`. -/
def patterns_compatible_immediately_after (pp cp : MeetingPattern)
    (maxGap : Int := 30) : Bool :=
  let commonDays := (get_pattern_days pp).filter (fun d => decide (d ∈ get_pattern_days cp))
  commonDays.any fun d =>
    (pp.times.filter (fun t => decide (t.day_of_week = d))).any fun pt =>
      (cp.times.filter (fun t => decide (t.day_of_week = d))).any fun ct =>
        decide (0 ≤ (ct.start_time : Int) - (pt.end_time : Int)
          ∧ (ct.start_time : Int) - (pt.end_time : Int) ≤ maxGap)

/-- The child candidate patterns compatible with one parent pattern
(`compatible_child_pids` in `_add_immediately_after_constraint`). -/
def compat_child_pids (pats : List MeetingPattern) (spm : List ((Nat × Nat) × Lit))
    (child : Section) (pp : MeetingPattern) : List Nat :=
  (map_pids_for spm child.id).filter (fun cpid =>
    match pattern_by_id pats cpid with
    | some cp => patterns_compatible_immediately_after pp cp
    | none => false)

/-- `_add_immediately_after_constraint`: per parent candidate pattern,
either forbid it (no compatible child pattern) or require a compatible
child pattern whenever it is chosen. -/
def add_immediately_after_constraint (pats : List MeetingPattern)
    (spm : List ((Nat × Nat) × Lit)) (parent child : Section) : List Cons :=
  (map_pids_for spm parent.id).flatMap fun ppid =>
    match pattern_by_id pats ppid with
    | none => []
    | some pp =>
      match dictGet spm (parent.id, ppid) with
      | none => []
      | some pv =>
        let compatible := compat_child_pids pats spm child pp
        if compatible.isEmpty then [consEqZero pv]
        else
          let cvars := compatible.filterMap (fun cpid => dictGet spm (child.id, cpid))
          if cvars.isEmpty then [] else [consSumGeLit cvars pv]

/-- `_add_same_day_constraint`. -/
def add_same_day_constraint (pats : List MeetingPattern)
    (spm : List ((Nat × Nat) × Lit)) (parent child : Section) : List Cons :=
  (map_pids_for spm parent.id).flatMap fun ppid =>
    match pattern_by_id pats ppid with
    | none => []
    | some pp =>
      match dictGet spm (parent.id, ppid) with
      | none => []
      | some pv =>
        let compatible := (map_pids_for spm child.id).filter (fun cpid =>
          match pattern_by_id pats cpid with
          | some cp =>
            decide (((get_pattern_days pp).filter (fun d => decide (d ∈ get_pattern_days cp))) ≠ [])
          | none => false)
        if compatible.isEmpty then []
        else
          let cvars := compatible.filterMap (fun cpid => dictGet spm (child.id, cpid))
          if cvars.isEmpty then [] else [consSumGeLit cvars pv]

/-- `_add_different_day_constraint`. -/
def add_different_day_constraint (pats : List MeetingPattern)
    (spm : List ((Nat × Nat) × Lit)) (parent child : Section) : List Cons :=
  (map_pids_for spm parent.id).flatMap fun ppid =>
    match pattern_by_id pats ppid with
    | none => []
    | some pp =>
      match dictGet spm (parent.id, ppid) with
      | none => []
      | some pv =>
        let compatible := (map_pids_for spm child.id).filter (fun cpid =>
          match pattern_by_id pats cpid with
          | some cp =>
            decide (((get_pattern_days pp).filter (fun d => decide (d ∈ get_pattern_days cp))) = [])
          | none => false)
        if compatible.isEmpty then []
        else
          let cvars := compatible.filterMap (fun cpid => dictGet spm (child.id, cpid))
          if cvars.isEmpty then [] else [consSumGeLit cvars pv]

/-- Link group ids in first-occurrence order. -/
def link_group_ids (inp : SolverInput) : List Nat :=
  dedupFirst (inp.sections.filterMap (·.link_group_id))

/-- The sections of one link group, in input order. -/
def sections_in_link_group (inp : SolverInput) (g : Nat) : List Section :=
  inp.sections.filter (fun s => s.link_group_id = some g)

/-- Connector dispatch of `add_linked_section_constraints` for one
parent/child pair. -/
def linked_dispatch (connector : String) (pats : List MeetingPattern)
    (spm : List ((Nat × Nat) × Lit)) (parent child : Section) : List Cons :=
  if connector = "immediately_after" then
    add_immediately_after_constraint pats spm parent child
  else if connector = "same_day" then
    add_same_day_constraint pats spm parent child
  else if connector = "different_day" then
    add_different_day_constraint pats spm parent child
  else []

/-- `add_linked_section_constraints` with the connector taken from
`constraint_options` (default `"immediately_after"`). -/
def add_linked_section_constraints (inp : SolverInput) (vt : VarTables) : List Cons :=
  let connector := (dictGet inp.constraint_options "link_connector_type").getD "immediately_after"
  (link_group_ids inp).flatMap fun g =>
    let gs := sections_in_link_group inp g
    if gs.length < 2 then []
    else
      match gs.filter (·.is_link_parent), gs with
      | p :: _, _ =>
        (gs.filter (fun s => !s.is_link_parent)).flatMap
          (fun c => linked_dispatch connector inp.meeting_patterns vt.sp p c)
      | [], p :: rest => rest.flatMap (fun c => linked_dispatch connector inp.meeting_patterns vt.sp p c)
      | [], [] => []

/-- `_time_in_range`: half-open interval membership `start <= t < end`. -/
def time_in_range (t lo hi : Nat) : Bool := decide (lo ≤ t ∧ t < hi)

/-- The `for meeting_time in pattern.times` loop of
`_pattern_matches_preference`, with the source's early returns. -/
def pattern_matches_preference_times (pref : InstructorPreference) :
    List MeetingTime → Bool
  | [] => false
  | mt :: rest =>
    match pref.day_of_week with
    | some d =>
      if mt.day_of_week ≠ d then pattern_matches_preference_times pref rest
      else
        match pref.start_time, pref.end_time with
        | some lo, some hi =>
          if time_in_range mt.start_time lo hi || time_in_range mt.end_time lo hi then true
          else pattern_matches_preference_times pref rest
        | _, _ => true
    | none =>
      match pref.start_time, pref.end_time with
      | some lo, some hi =>
        if time_in_range mt.start_time lo hi || time_in_range mt.end_time lo hi then true
        else pattern_matches_preference_times pref rest
      | _, _ => pattern_matches_preference_times pref rest

/-- `_pattern_matches_preference`. -/
def pattern_matches_preference (p : MeetingPattern) (pref : InstructorPreference) : Bool :=
  match pref.meeting_pattern_id with
  | some mid => decide (p.id = mid)
  | none => pattern_matches_preference_times pref p.times

/-- One meeting time's contribution to the specification's matching
predicate: the entry's day (if set) agrees and, when both bounds are set,
the time's start or end lies in the half-open preference window, else the
entry has a day (day-only preference). -/
def spec_time_pred (pref : InstructorPreference) (mt : MeetingTime) : Bool :=
  (match pref.day_of_week with
   | some d => decide (mt.day_of_week = d)
   | none => true)
  && (match pref.start_time, pref.end_time with
      | some lo, some hi =>
        time_in_range mt.start_time lo hi || time_in_range mt.end_time lo hi
      | _, _ => pref.day_of_week.isSome)

/-- The matching predicate as the specification words it: pattern-id match
when the entry names a pattern; otherwise some meeting time of the pattern
satisfies `spec_time_pred`.  Written from the specification, to be
compared with `pattern_matches_preference`. -/
def spec_matches (p : MeetingPattern) (pref : InstructorPreference) : Bool :=
  match pref.meeting_pattern_id with
  | some mid => decide (p.id = mid)
  | none => p.times.any (spec_time_pred pref)

/-- The `penalty_value` computed from a preference level in
`add_instructor_preference_penalties`. -/
def preference_penalty_value (base : Int) : PreferenceLevel → Int
  | .prohibited => base * 100
  | .discouraged => base * 2
  | .preferred => -base
  | .required => -base * 2
  | .neutral => 0

/-- One iteration of the innermost preference loop: `None` when the
pattern does not match or `penalty_value == 0`, otherwise the penalty
variable's domain constraint, its defining constraint (product with the
instructor variable, or equality with the pattern variable when the
instructor is pre-assigned), and the signed penalty term. -/
def pref_emit (base : Int) (s : Section) (iid : Nat) (p : MeetingPattern)
    (x : Lit) (w : Option Lit) (idx : Nat) (pref : InstructorPreference) :
    Option (List Cons × (Int × Lit)) :=
  if !pattern_matches_preference p pref then none
  else
    let pv := preference_penalty_value base pref.preference_level
    if pv = 0 then none
    else
      let g := Lit.var (.pref s.id iid p.id idx)
      some (boolVarRange (.pref s.id iid p.id idx) ::
              (match w with
               | some wv => [Cons.mulEq g x wv]
               | none => if iid ∈ s.assigned_instructor_ids then [consEqLits g x] else []),
            (pv, g))

/-- All emissions of `add_instructor_preference_penalties`, in loop
order: sections, then the set of assigned-or-preferred instructors, then
patterns with a variable, then preference entries. -/
def pref_emissions (inp : SolverInput) (vt : VarTables) : List (List Cons × (Int × Lit)) :=
  let base := wget inp.constraint_weights "instructor_time_preference" 10
  inp.sections.flatMap fun s =>
    (dedupFirst (s.assigned_instructor_ids ++ s.preferred_instructor_ids)).flatMap fun iid =>
      match inp.instructors.find? (fun i => i.id = iid) with
      | none => []
      | some instr =>
        if instr.time_preferences.isEmpty then []
        else inp.meeting_patterns.flatMap fun p =>
          match dictGet vt.sp (s.id, p.id) with
          | none => []
          | some x =>
            (instr.time_preferences.enum).filterMap fun ip =>
              pref_emit base s iid p x (dictGet vt.si (s.id, iid)) ip.1 ip.2

/-- `add_instructor_preference_penalties`: the side constraints it adds to
the model and the penalty terms it returns. -/
def add_instructor_preference_penalties (inp : SolverInput) (vt : VarTables) :
    List Cons × List (Int × Lit) :=
  ((pref_emissions inp vt).flatMap (·.1), (pref_emissions inp vt).map (·.2))

/-- The signed weights exactly as the specification lists them. -/
def spec_weight (base : Int) : PreferenceLevel → Int
  | .prohibited => 100 * base
  | .discouraged => 2 * base
  | .preferred => -(1 * base)
  | .required => -(2 * base)
  | .neutral => 0

/-- The penalty-term list as claim C8 words it: one signed term
`weight · g` for every (section, instructor that could teach it, pattern
with a variable, matching non-NEUTRAL preference entry) quadruple.
Written from the specification, to be compared with
`add_instructor_preference_penalties`. -/
def spec_pref_terms (inp : SolverInput) (vt : VarTables) : List (Int × Lit) :=
  let base := wget inp.constraint_weights "instructor_time_preference" 10
  inp.sections.flatMap fun s =>
    (dedupFirst (s.assigned_instructor_ids ++ s.preferred_instructor_ids)).flatMap fun iid =>
      match inp.instructors.find? (fun i => i.id = iid) with
      | none => []
      | some instr =>
        inp.meeting_patterns.flatMap fun p =>
          match dictGet vt.sp (s.id, p.id) with
          | none => []
          | some _ =>
            (instr.time_preferences.enum).filterMap fun ip =>
              if spec_matches p ip.2 && decide (ip.2.preference_level ≠ .neutral) then
                some (spec_weight base ip.2.preference_level, Lit.var (.pref s.id iid p.id ip.1))
              else none

/-- `(section, load-literal)` pairs of `instructor_sections` in
`add_instructor_workload_penalties`: the decision variable when one
exists, the constant `1` for a pre-assignment. -/
def instructor_section_lits (inp : SolverInput) (vt : VarTables) (i : Instructor) :
    List (Section × Lit) :=
  inp.sections.filterMap fun s =>
    match dictGet vt.si (s.id, i.id) with
    | some v => some (s, v)
    | none =>
      if i.id ∈ s.assigned_instructor_ids then some (s, Lit.const 1) else none

/-- `add_instructor_workload_penalties`: the load variable and its
defining equality, underload, overload and target-deviation terms. -/
def add_instructor_workload_penalties (inp : SolverInput) (vt : VarTables) :
    List Cons × List (Int × Lit) :=
  let underW := wget inp.constraint_weights "instructor_underload" 20
  let overW := wget inp.constraint_weights "instructor_overload" 50
  let targetW := wget inp.constraint_weights "instructor_target_deviation" 5
  let parts := inp.instructors.map fun i =>
    let isecs := instructor_section_lits inp vt i
    if isecs.isEmpty then (([] : List Cons), ([] : List (Int × Lit)))
    else
      let maxPossible : Int := (isecs.map (fun sl => sl.1.credit_hours_x10)).sum
      let loadL := Lit.var (.load i.id)
      let loadTerms : List (Int × Lit) := isecs.map (fun sl => (sl.1.credit_hours_x10, sl.2))
      let c0 : List Cons :=
        [Cons.range loadL 0 maxPossible, Cons.linEq (loadTerms ++ [(-1, loadL)]) 0]
      let c1 : List Cons × List (Int × Lit) :=
        if 0 < i.min_load_x10 then
          ([Cons.range (Lit.var (.under i.id)) 0 i.min_load_x10,
            Cons.linGe [(1, Lit.var (.under i.id)), (1, loadL)] i.min_load_x10,
            Cons.linGe [(1, Lit.var (.under i.id))] 0],
           [(underW, Lit.var (.under i.id))])
        else ([], [])
      let c2 : List Cons × List (Int × Lit) :=
        ([Cons.range (Lit.var (.over i.id)) 0 (10 * maxPossible),
          Cons.linGe [(1, Lit.var (.over i.id)), (-1, loadL)] (-i.max_load_x10),
          Cons.linGe [(1, Lit.var (.over i.id))] 0],
         [(overW, Lit.var (.over i.id))])
      let c3 : List Cons × List (Int × Lit) :=
        match i.target_load_x10 with
        | some t =>
          ([Cons.range (Lit.var (.dev i.id)) 0 (10 * maxPossible),
            Cons.absEq (Lit.var (.dev i.id)) [(1, loadL)] (-t)],
           [(targetW, Lit.var (.dev i.id))])
        | none => ([], [])
      (c0 ++ c1.1 ++ c2.1 ++ c3.1, c1.2 ++ c2.2 ++ c3.2)
  (parts.flatMap (·.1), parts.flatMap (·.2))

/-- A built model: the variable tables, every constraint added to the
CP-SAT model, and the objective's penalty terms. -/
structure Model where
  vt : VarTables
  cons : List Cons
  penalties : List (Int × Lit)
deriving DecidableEq, Repr

/-- The model-building phase of `CPSATSolver.solve`: variable creation,
assignment constraints, hard constraints (with the possible `TypeError`
of the instructor-conflict generator), soft constraints. -/
def buildModel (inp : SolverInput) : Except String Model :=
  let vt := create_variables inp
  let assign := add_assignment_constraints inp vt
  let rc := add_room_conflict_constraints inp vt
  match add_instructor_conflict_constraints inp vt with
  | .error e => .error e
  | .ok ic =>
    let cap := add_room_capacity_constraints inp vt
    let feat := add_room_feature_constraints inp vt
    let cl := add_cross_list_constraints inp vt
    let ls := add_linked_section_constraints inp vt
    let pp := add_instructor_preference_penalties inp vt
    let wl := add_instructor_workload_penalties inp vt
    .ok { vt := vt
          cons := vt.cons ++ assign ++ rc ++ ic ++ cap ++ feat ++ cl ++ ls ++ pp.1 ++ wl.1
          penalties := pp.2 ++ wl.2 }

/-- An extracted assignment (`Assignment` in models/domain.py). -/
structure Assignment where
  section_id : Nat
  meeting_pattern_id : Option Nat
  date_pattern_id : Option Nat
  room_id : Option Nat
  instructor_ids : List Nat
  penalty_contribution : Int
  is_assigned : Bool
  unassigned_reason : Option String
deriving DecidableEq, Repr

/-- The `for ... if Value == 1: ...; break` search of
`_extract_solution`: first list item whose variable exists and holds 1. -/
def scan_first {α : Type} (σ : Valuation) (m : List ((Nat × Nat) × Lit)) (sid : Nat)
    (key : α → Nat) : List α → Option α
  | [] => none
  | x :: xs =>
    match dictGet m (sid, key x) with
    | some l => if l.eval σ = 1 then some x else scan_first σ m sid key xs
    | none => scan_first σ m sid key xs

/-- `_extract_solution` for one section. -/
def extract_for (inp : SolverInput) (vt : VarTables) (σ : Valuation) (s : Section) :
    Assignment :=
  let pat := scan_first σ vt.sp s.id MeetingPattern.id inp.meeting_patterns
  let room := scan_first σ vt.sr s.id Room.id inp.rooms
  let insts := s.assigned_instructor_ids ++
    inp.instructors.filterMap (fun i =>
      match dictGet vt.si (s.id, i.id) with
      | some l => if l.eval σ = 1 then some i.id else none
      | none => none)
  let isAssigned := pat.isSome && room.isSome
  { section_id := s.id
    meeting_pattern_id := pat.map (·.id)
    date_pattern_id :=
      match s.fixed_date_pattern_id with
      | some f => some f
      | none => inp.date_patterns.head?
    room_id := room.map (·.id)
    instructor_ids := insts
    penalty_contribution := 0
    is_assigned := isAssigned
    unassigned_reason := if isAssigned then none else some "No feasible assignment found" }

/-- `_extract_solution`. -/
def extract_solution (inp : SolverInput) (vt : VarTables) (σ : Valuation) :
    List Assignment :=
  inp.sections.map (extract_for inp vt σ)

/-- A structured issue returned by the validation endpoint. -/
structure ValidationIssue where
  itype : String
  section_id : Nat
  message : String
deriving DecidableEq, Repr

/-- The object returned by `validate_input` in api/routes.py. -/
structure ValidationResult where
  valid : Bool
  issues : List ValidationIssue
  section_count : Nat
  room_count : Nat
  pattern_count : Nat
deriving DecidableEq, Repr

/-- Python `x or default` on an optional id set: falls through to the
default both when `x` is `None` and when it is empty. -/
def pyOrIds (o : Option (List Nat)) (d : List Nat) : List Nat :=
  if pyTruthy o then o.getD [] else d

/-- The issues the `/validate` endpoint collects for one section: rooms
first (capacity-filtered), then patterns. -/
def issues_for_section (inp : SolverInput) (s : Section) : List ValidationIssue :=
  let allowedRooms := pyOrIds s.allowed_room_ids (inp.rooms.map (·.id))
  let validRooms := inp.rooms.filter (fun r =>
    decide (r.id ∈ allowedRooms) && decide (s.expected_enrollment ≤ r.capacity))
  let allowedPatterns := pyOrIds s.allowed_meeting_pattern_ids (inp.meeting_patterns.map (·.id))
  (if validRooms.isEmpty then
     [{ itype := "no_valid_rooms", section_id := s.id,
        message := "No room with capacity >= " ++ toString s.expected_enrollment }]
   else [])
  ++ (if allowedPatterns.isEmpty then
        [{ itype := "no_valid_patterns", section_id := s.id,
           message := "No allowed meeting patterns" }]
      else [])

/-- `validate_input` (POST /validate): collects structured issues and
returns them; `valid` is the emptiness of the issue list. -/
def validate_input (inp : SolverInput) : ValidationResult :=
  let issues := inp.sections.flatMap (issues_for_section inp)
  { valid := decide (issues.length = 0)
    issues := issues
    section_count := inp.sections.length
    room_count := inp.rooms.length
    pattern_count := inp.meeting_patterns.length }

/-- A row of `scheduling.section_assignments`; `rid` is the DB-generated
row id, `valid_to = none` means the row is live. -/
structure SectionAssignmentRow where
  rid : Nat
  section_id : Nat
  schedule_version_id : Nat
  meeting_pattern_id : Option Nat
  date_pattern_id : Option Nat
  room_id : Option Nat
  penalty_contribution : Int
  assignment_source : String
  notes : Option String
  valid_to : Option Nat
deriving DecidableEq, Repr

/-- A row of `scheduling.solver_runs` (the fields the saver writes). -/
structure SolverRunRow where
  id : Nat
  schedule_version_id : Nat
  status : String
  input_sections : Nat
  assigned_sections : Nat
  unassigned_sections : Nat
  total_penalty : Int
  stats_solve_time_ms : Int
  stats_branches : Int
  stats_conflicts : Int
deriving DecidableEq, Repr

/-- A row of `scheduling.instructor_assignments`. -/
structure InstructorAssignmentRow where
  section_assignment_id : Nat
  instructor_id : Nat
  role : String
deriving DecidableEq, Repr

/-- A violation dictionary handed to the saver (`v.get(...)` fields). -/
structure ViolationInput where
  constraint_type_id : Option Nat
  section_id : Option Nat
  instructor_id : Option Nat
  room_id : Option Nat
  penalty : Int
  description : Option String
deriving DecidableEq, Repr

/-- A row of `scheduling.constraint_violations`; `constraint_type_id` is a
non-nullable foreign key. -/
structure ConstraintViolationRow where
  solver_run_id : Nat
  constraint_type_id : Nat
  section_id : Option Nat
  instructor_id : Option Nat
  room_id : Option Nat
  penalty_value : Int
  description : Option String
deriving DecidableEq, Repr

/-- A row of `scheduling.schedule_versions` (the fields the commit
operation touches). -/
structure ScheduleVersionRow where
  id : Nat
  status : String
  published_at : Option Nat
  updated_at : Option Nat
deriving DecidableEq, Repr

/-- The stored state the scheduler touches; `next_row_id` models the
DB-generated ids of newly inserted `section_assignments` rows. -/
structure DbState where
  schedule_versions : List ScheduleVersionRow
  solver_runs : List SolverRunRow
  section_assignments : List SectionAssignmentRow
  instructor_assignments : List InstructorAssignmentRow
  constraint_violations : List ConstraintViolationRow
  next_row_id : Nat
deriving DecidableEq, Repr

/-- The solver output handed to the saver (`SolverOutput`, with the
result fields the saver reads). -/
structure SolverOutputM where
  solver_run_id : Nat
  status : String
  objective_value : Int
  solve_time_ms : Int
  branches : Int
  conflicts : Int
  assignments : List Assignment
  violations : List ViolationInput
deriving DecidableEq, Repr

/-- Whether a `section_assignments` row is a currently-live solver row of
the given schedule version (the WHERE clause of steps 2 and 4). -/
def live_solver_for (svid : Nat) (r : SectionAssignmentRow) : Bool :=
  decide (r.schedule_version_id = svid) && decide (r.valid_to = none)
    && decide (r.assignment_source = "solver")

/-- Step 1: `INSERT ... ON CONFLICT (id) DO UPDATE` on
`scheduling.solver_runs`.  The update clause sets only the listed
columns, so an existing row keeps its `schedule_version_id`. -/
def upsert_solver_run (svid : Nat) (out : SolverOutputM)
    (runs : List SolverRunRow) : List SolverRunRow :=
  let assigned := (out.assignments.filter (·.is_assigned)).length
  let unassigned := out.assignments.length - assigned
  if runs.any (fun r => r.id = out.solver_run_id) then
    runs.map (fun r =>
      if r.id = out.solver_run_id then
        { r with status := out.status, input_sections := out.assignments.length,
                 assigned_sections := assigned, unassigned_sections := unassigned,
                 total_penalty := out.objective_value,
                 stats_solve_time_ms := out.solve_time_ms,
                 stats_branches := out.branches, stats_conflicts := out.conflicts }
      else r)
  else
    runs ++ [{ id := out.solver_run_id, schedule_version_id := svid,
               status := out.status, input_sections := out.assignments.length,
               assigned_sections := assigned, unassigned_sections := unassigned,
               total_penalty := out.objective_value,
               stats_solve_time_ms := out.solve_time_ms,
               stats_branches := out.branches, stats_conflicts := out.conflicts }]

/-- Step 2: `UPDATE ... SET valid_to = NOW()` on every currently-live
solver row of this schedule version. -/
def expire_live_solver_rows (now svid : Nat) (rows : List SectionAssignmentRow) :
    List SectionAssignmentRow :=
  rows.map (fun r => if live_solver_for svid r then { r with valid_to := some now } else r)

/-- Step 3: the rows bulk-inserted for the assigned sections, with
DB-generated ids starting at `startId`. -/
def new_assignment_rows (svid startId : Nat) (assigned : List Assignment) :
    List SectionAssignmentRow :=
  assigned.enum.map (fun ia =>
    { rid := startId + ia.1
      section_id := ia.2.section_id
      schedule_version_id := svid
      meeting_pattern_id := ia.2.meeting_pattern_id
      date_pattern_id := ia.2.date_pattern_id
      room_id := ia.2.room_id
      penalty_contribution := ia.2.penalty_contribution
      assignment_source := "solver"
      notes := ia.2.unassigned_reason
      valid_to := none })

/-- Step 4's `ON CONFLICT DO NOTHING` bulk insert into
`instructor_assignments`: a pair already present is silently skipped. -/
def insert_instructor_assignments (table : List InstructorAssignmentRow) :
    List (Nat × Nat) → List InstructorAssignmentRow
  | [] => table
  | (said, iid) :: rest =>
    if table.any (fun r => r.section_assignment_id = said ∧ r.instructor_id = iid) then
      insert_instructor_assignments table rest
    else
      insert_instructor_assignments
        (table ++ [{ section_assignment_id := said, instructor_id := iid, role := "primary" }])
        rest

/-- Step 5: each violation row requires a `constraint_type_id`; a missing
one violates the NOT NULL foreign key and aborts the transaction. -/
def violation_rows (runId : Nat) : List ViolationInput →
    Except String (List ConstraintViolationRow)
  | [] => .ok []
  | v :: rest =>
    match v.constraint_type_id with
    | none => .error "NotNullViolation: constraint_violations.constraint_type_id"
    | some ct =>
      match violation_rows runId rest with
      | .error e => .error e
      | .ok rs =>
        .ok ({ solver_run_id := runId, constraint_type_id := ct,
               section_id := v.section_id, instructor_id := v.instructor_id,
               room_id := v.room_id, penalty_value := v.penalty,
               description := v.description } :: rs)

/-- `save_solver_output`: the five persistence steps, executed inside one
transaction (`async with conn.transaction()`).  An error from any step
leaves no committed effect; the returned state is the state after all
five steps succeeded. -/
def save_solver_output (now svid : Nat) (out : SolverOutputM) (st : DbState) :
    Except String DbState :=
  let runs := upsert_solver_run svid out st.solver_runs
  let expired := expire_live_solver_rows now svid st.section_assignments
  let assigned := out.assignments.filter (·.is_assigned)
  let newRows := new_assignment_rows svid st.next_row_id assigned
  let sa2 := expired ++ newRows
  let ia2 :=
    if assigned.isEmpty then st.instructor_assignments
    else
      let liveMap := (sa2.filter (live_solver_for svid)).map (fun r => (r.section_id, r.rid))
      let pairs := assigned.flatMap (fun a =>
        match dictGetLast liveMap a.section_id with
        | some said => a.instructor_ids.map (fun iid => (said, iid))
        | none => [])
      insert_instructor_assignments st.instructor_assignments pairs
  match violation_rows out.solver_run_id out.violations with
  | .error e => .error e
  | .ok vrows =>
    .ok { st with
          solver_runs := runs
          section_assignments := sa2
          instructor_assignments := ia2
          constraint_violations := st.constraint_violations ++ vrows
          next_row_id := st.next_row_id + newRows.length }

/-- The state a caller observes after `save_solver_output`: the
transaction's commit on success, a rollback to the original state on
error. -/
def run_save (now svid : Nat) (out : SolverOutputM) (st : DbState) : DbState :=
  match save_solver_output now svid out st with
  | .ok st' => st'
  | .error _ => st

/-- The row map of `commit_schedule_version`'s UPDATE:
`SET status='published', published_at=NOW(), updated_at=NOW()
WHERE id = $1 AND status = 'draft'`. -/
def commit_row (now svid : Nat) (r : ScheduleVersionRow) : ScheduleVersionRow :=
  if r.id = svid ∧ r.status = "draft" then
    { r with status := "published", published_at := some now, updated_at := some now }
  else r

/-- `commit_schedule_version`: publish a draft version and return the
count of live assignment rows of the version. -/
def commit_schedule_version (now svid : Nat) (st : DbState) : DbState × Nat :=
  ({ st with schedule_versions := st.schedule_versions.map (commit_row now svid) },
   (st.section_assignments.filter (fun a =>
      decide (a.schedule_version_id = svid) && decide (a.valid_to = none))).length)

/-- A section with neutral defaults, to be overridden fieldwise in the
concrete instances below. -/
def baseSection : Section :=
  { id := 0, course_id := 0, expected_enrollment := 0, credit_hours_x10 := 30
    allowed_meeting_pattern_ids := none, allowed_room_ids := none
    required_room_features := [], preferred_instructor_ids := []
    assigned_instructor_ids := [], cross_list_group_id := none
    link_group_id := none, is_link_parent := false
    fixed_meeting_pattern_id := none, fixed_room_id := none
    fixed_date_pattern_id := none }

/-- An empty problem instance. -/
def baseInput : SolverInput :=
  { meeting_patterns := [], date_patterns := [], rooms := [], instructors := []
    courses := [], sections := [], constraint_weights := [], constraint_options := [] }

/-- Two overlapping Monday-morning patterns. -/
def patA : MeetingPattern := { id := 1, times := [{ day_of_week := 0, start_time := 540, end_time := 590 }] }

/-- Overlaps `patA` (same day, 9:30 to 10:30 against 9:00 to 9:50). -/
def patB : MeetingPattern := { id := 2, times := [{ day_of_week := 0, start_time := 570, end_time := 630 }] }

/-- A large room. -/
def room20 : Room := { id := 20, capacity := 100, features := [] }

/-- Failing input of claim C1: two sections, both pre-assigning
instructor 7, with two overlapping candidate patterns. -/
def c1Input : SolverInput :=
  { baseInput with
    meeting_patterns := [patA, patB]
    rooms := [room20]
    sections :=
      [{ baseSection with id := 10, expected_enrollment := 10, assigned_instructor_ids := [7] },
       { baseSection with id := 11, expected_enrollment := 10, assigned_instructor_ids := [7] }] }

/-- Three pairwise non-overlapping one-day patterns (days 0, 1, 2). -/
def patD0 : MeetingPattern := { id := 1, times := [{ day_of_week := 0, start_time := 540, end_time := 590 }] }

/-- Day-1 pattern. -/
def patD1 : MeetingPattern := { id := 2, times := [{ day_of_week := 1, start_time := 540, end_time := 590 }] }

/-- Day-2 pattern. -/
def patD2 : MeetingPattern := { id := 3, times := [{ day_of_week := 2, start_time := 540, end_time := 590 }] }

/-- The anchor member of the cross-list group of `c2Input`: candidate
patterns 1 and 2. -/
def c2SectionA : Section :=
  { baseSection with
    id := 10
    expected_enrollment := 10
    allowed_meeting_pattern_ids := some [1, 2]
    cross_list_group_id := some 5 }

/-- The non-anchor member of the cross-list group of `c2Input`. -/
def c2SectionB : Section :=
  { baseSection with
    id := 11
    expected_enrollment := 10
    allowed_meeting_pattern_ids := some [2, 3]
    cross_list_group_id := some 5 }

/-- Failing input of claim C2: one cross-list group whose anchor may use
patterns 1 and 2 and whose other member may use patterns 2 and 3, one
shared room, no instructors. -/
def c2Input : SolverInput :=
  { baseInput with
    meeting_patterns := [patD0, patD1, patD2]
    rooms := [room20]
    sections := [c2SectionA, c2SectionB] }

/-- A solution of `c2Input`'s generated model assigning pattern 1 to the
anchor and pattern 3 to the other member, both in room 20. -/
def c2Sol : Valuation := fun k =>
  match k with
  | .sp 10 1 => 1
  | .sp 11 3 => 1
  | .sr 10 20 => 1
  | .sr 11 20 => 1
  | .srp 10 20 1 => 1
  | .srp 11 20 3 => 1
  | _ => 0

/-- The constraint list of a successfully built model (empty when the
build raised). -/
def modelConsOf (inp : SolverInput) : List Cons :=
  match buildModel inp with
  | .ok m => m.cons
  | .error _ => []

/-- The variable tables of a built model (they exist even when a later
generator raised). -/
def modelVtOf (inp : SolverInput) : VarTables :=
  match buildModel inp with
  | .ok m => m.vt
  | .error _ => create_variables inp

/-- The successfully built model itself, with a trivial fallback in the
error case. -/
def modelOf (inp : SolverInput) : Model :=
  match buildModel inp with
  | .ok m => m
  | .error _ => { vt := create_variables inp, cons := [], penalties := [] }

/-- `Except.isOk` without depending on library helpers. -/
def isOkE {E α : Type} : Except E α → Bool
  | .ok _ => true
  | .error _ => false

/-- The section of `c4Input`: its allowed set names the unknown pattern
id 99. -/
def c4Section : Section :=
  { baseSection with
    id := 10
    expected_enrollment := 10
    allowed_meeting_pattern_ids := some [99] }

/-- Failing input of claim C4: the input has only pattern 1, but the
section's allowed set names the unknown pattern id 99. -/
def c4Input : SolverInput :=
  { baseInput with
    meeting_patterns := [patD0]
    rooms := [room20]
    sections := [c4Section] }

/-- The section of `c6Input`: its allowed-pattern set is explicitly
empty. -/
def c6Section : Section :=
  { baseSection with
    id := 10
    expected_enrollment := 10
    allowed_meeting_pattern_ids := some ([] : List Nat) }

/-- Counterexample input of claim C6: pattern 1 exists, the section's
allowed-pattern set is explicitly empty, and a large room fits it. -/
def c6Input : SolverInput :=
  { baseInput with
    meeting_patterns := [patD0]
    rooms := [room20]
    sections := [c6Section] }

/-- The single section of `c7Input`. -/
def c7Section : Section :=
  { baseSection with id := 10, expected_enrollment := 10 }

/-- Witness input of claim C7: one section, one adequate room, one
pattern. -/
def c7Input : SolverInput :=
  { baseInput with
    meeting_patterns := [patD0]
    rooms := [room20]
    sections := [c7Section] }

/-- The all-assigned solution of `c7Input`. -/
def c7Sol : Valuation := fun k =>
  match k with
  | .sp 10 1 => 1
  | .sr 10 20 => 1
  | .srp 10 20 1 => 1
  | _ => 0

/-- An empty stored state for the persistence witnesses. -/
def baseDb : DbState :=
  { schedule_versions := [], solver_runs := [], section_assignments := []
    instructor_assignments := [], constraint_violations := [], next_row_id := 100 }

/-- A stored state holding one draft schedule version 5, one live solver
assignment row and one live manual row of that version. -/
def c9Db : DbState :=
  { baseDb with
    schedule_versions := [{ id := 5, status := "draft", published_at := none, updated_at := none }]
    section_assignments :=
      [{ rid := 1, section_id := 10, schedule_version_id := 5, meeting_pattern_id := some 1
         date_pattern_id := none, room_id := some 20, penalty_contribution := 0
         assignment_source := "solver", notes := none, valid_to := none },
       { rid := 2, section_id := 11, schedule_version_id := 5, meeting_pattern_id := some 2
         date_pattern_id := none, room_id := some 20, penalty_contribution := 0
         assignment_source := "manual", notes := none, valid_to := none }] }

/-- A solver output whose single violation lacks a `constraint_type_id`,
tripping the NOT NULL foreign key in persistence step 5. -/
def c3BadOutput : SolverOutputM :=
  { solver_run_id := 77, status := "feasible", objective_value := 0
    solve_time_ms := 5, branches := 0, conflicts := 0
    assignments :=
      [{ section_id := 10, meeting_pattern_id := some 1, date_pattern_id := none
         room_id := some 20, instructor_ids := [7], penalty_contribution := 0
         is_assigned := true, unassigned_reason := none }]
    violations := [{ constraint_type_id := none, section_id := some 10
                     instructor_id := none, room_id := none, penalty := 3
                     description := some "test" }] }

/-- A solver output with one assigned section, one unassigned section and
one well-formed violation, for the success case of the persistence
contract. -/
def c3GoodOutput : SolverOutputM :=
  { solver_run_id := 77, status := "feasible", objective_value := 4
    solve_time_ms := 5, branches := 2, conflicts := 1
    assignments :=
      [{ section_id := 10, meeting_pattern_id := some 1, date_pattern_id := none
         room_id := some 20, instructor_ids := [7], penalty_contribution := 0
         is_assigned := true, unassigned_reason := none },
       { section_id := 12, meeting_pattern_id := none, date_pattern_id := none
         room_id := none, instructor_ids := [], penalty_contribution := 0
         is_assigned := false, unassigned_reason := some "No feasible assignment found" }]
    violations := [{ constraint_type_id := some 3, section_id := some 10
                     instructor_id := none, room_id := none, penalty := 4
                     description := some "soft" }] }

/-- Parent pattern for the linked-section witness (ends 9:50). -/
def c5PatParent : MeetingPattern :=
  { id := 1, times := [{ day_of_week := 0, start_time := 540, end_time := 590 }] }

/-- Child pattern starting 10 minutes after the parent ends (in gap). -/
def c5PatNear : MeetingPattern :=
  { id := 2, times := [{ day_of_week := 0, start_time := 600, end_time := 650 }] }

/-- Child pattern starting 110 minutes after the parent ends (out of
gap). -/
def c5PatFar : MeetingPattern :=
  { id := 3, times := [{ day_of_week := 0, start_time := 700, end_time := 750 }] }

/-- The three patterns of the linked-section witness. -/
def c5Pats : List MeetingPattern := [c5PatParent, c5PatNear, c5PatFar]

/-- Parent section of link group 8. -/
def c5Parent : Section :=
  { baseSection with id := 10, expected_enrollment := 10, link_group_id := some 8, is_link_parent := true }

/-- Child section of link group 8. -/
def c5Child : Section :=
  { baseSection with id := 11, expected_enrollment := 10, link_group_id := some 8 }

/-- Pattern-variable table of the linked-section witness: the parent may
use pattern 1, the child patterns 2 and 3. -/
def c5Spm : List ((Nat × Nat) × Lit) :=
  [((10, 1), Lit.var (.sp 10 1)),
   ((11, 2), Lit.var (.sp 11 2)),
   ((11, 3), Lit.var (.sp 11 3))]

/-- Solution of the linked-section witness: parent takes pattern 1, child
takes the compatible pattern 2. -/
def c5Sol : Valuation := fun k =>
  match k with
  | .sp 10 1 => 1
  | .sp 11 2 => 1
  | _ => 0

/-- Instructor 7 of the preference witness: discourages Monday mornings
and prohibits pattern 3. -/
def c8Instructor : Instructor :=
  { id := 7, min_load_x10 := 0, max_load_x10 := 120, target_load_x10 := none
    time_preferences :=
      [{ day_of_week := some 0, start_time := some 540, end_time := some 600
         meeting_pattern_id := none, preference_level := .discouraged },
       { day_of_week := none, start_time := none, end_time := none
         meeting_pattern_id := some 3, preference_level := .prohibited },
       { day_of_week := some 1, start_time := none, end_time := none
         meeting_pattern_id := none, preference_level := .neutral }] }

/-- Section of the preference witness: instructor 7 is a candidate. -/
def c8Section : Section :=
  { baseSection with id := 10, expected_enrollment := 10, preferred_instructor_ids := [7] }

/-- Witness input of claim C8: three one-day patterns, instructor 7 with
three preference entries, one candidate section. -/
def c8Input : SolverInput :=
  { baseInput with
    meeting_patterns := [patD0, patD1, patD2]
    rooms := [room20]
    instructors := [c8Instructor]
    sections := [c8Section] }

/-- Claim C1, settled against the code: on an input where instructor 7 is
pre-assigned to both sections and the two candidate patterns overlap, the
instructor-conflict generator reaches the branch
`model.Add(var_s1_p1 + var_s2_p2 + var_s2_inst <= 2)` with
`var_s2_inst = None` and raises `TypeError`; model building aborts
instead of emitting the redundant inequality `x_{s1,p1} + x_{s2,p2} <= 1`
the specification describes. -/
theorem C1_both_preassigned_conflict_generation_raises :
    add_instructor_conflict_constraints c1Input (create_variables c1Input)
      = Except.error "TypeError: unsupported operand, adding None to a linear expression"
    ∧ buildModel c1Input
      = Except.error "TypeError: unsupported operand, adding None to a linear expression" :=
  ⟨rfl, rfl⟩

/-- Claim C2, settled against the code: `c2Sol` satisfies every constraint
of the model generated for `c2Input`, yet the two sections of cross-list
group 5 extract different meeting patterns (1 versus 3); the generator
never forces the non-anchor's variables outside the candidate
intersection to 0, so cross-listed sections need not share a pattern. -/
theorem C2_cross_list_groups_can_diverge :
    isOkE (buildModel c2Input) = true
    ∧ satisfies c2Sol (modelConsOf c2Input) = true
    ∧ (extract_solution c2Input (modelVtOf c2Input) c2Sol).map
        (fun a => (a.is_assigned, a.meeting_pattern_id, a.room_id))
      = [(true, some 1, some 20), (true, some 3, some 20)]
    ∧ c2SectionA.cross_list_group_id = some 5
    ∧ c2SectionB.cross_list_group_id = some 5 :=
  ⟨rfl, rfl, rfl, rfl, rfl⟩

theorem dictGet_append {κ β : Type} [DecidableEq κ] (m₁ m₂ : List (κ × β)) (k : κ) :
    dictGet (m₁ ++ m₂) k
      = (match dictGet m₁ k with
         | some v => some v
         | none => dictGet m₂ k) := by
  induction m₁ with
  | nil => simp [dictGet]
  | cons e rest ih =>
    obtain ⟨k', v⟩ := e
    by_cases h : k' = k <;> simp [dictGet, h, ih]

theorem dictGet_none_of_fst_ne {κ β : Type} [DecidableEq κ] (sid : Nat) (x : κ) :
    ∀ m : List ((Nat × κ) × β), (∀ e ∈ m, e.1.1 ≠ sid) → dictGet m (sid, x) = none
  | [], _ => rfl
  | ⟨⟨a, b⟩, v⟩ :: rest, h => by
    have ha : a ≠ sid := h ⟨⟨a, b⟩, v⟩ (by simp)
    simp only [dictGet]
    rw [if_neg (by simp [ha] : ¬((a, b) = (sid, x)))]
    exact dictGet_none_of_fst_ne sid x rest (fun e he => h e (List.mem_cons_of_mem _ he))

theorem dictGet_flatMap_blocks {κ β : Type} [DecidableEq κ]
    (f : Section → List ((Nat × κ) × β))
    (hk : ∀ s e, e ∈ f s → e.1.1 = s.id) :
    ∀ sections : List Section, (sections.map Section.id).Nodup →
      ∀ s ∈ sections, ∀ x : κ,
        dictGet (sections.flatMap f) (s.id, x) = dictGet (f s) (s.id, x) := by
  intro sections
  induction sections with
  | nil => intro _ s hs; cases hs
  | cons t rest ih =>
    intro hnd s hs x
    rw [List.flatMap_cons, dictGet_append]
    rcases List.mem_cons.mp hs with h | h
    · subst h
      cases hfind : dictGet (f s) (s.id, x) with
      | some v => simp
      | none =>
        simp only []
        apply dictGet_none_of_fst_ne
        intro e he
        obtain ⟨s', hs', he'⟩ := List.mem_flatMap.mp he
        rw [hk s' e he']
        intro heq
        exact (List.nodup_cons.mp hnd).1 (heq ▸ List.mem_map_of_mem Section.id hs')
    · have hne : t.id ≠ s.id := by
        have h1 : s.id ∈ rest.map Section.id := List.mem_map_of_mem _ h
        have h2 : t.id ∉ rest.map Section.id := (List.nodup_cons.mp hnd).1
        intro he; exact h2 (he ▸ h1)
      have hnone : dictGet (f t) (s.id, x) = none :=
        dictGet_none_of_fst_ne _ _ _ (fun e he => by rw [hk t e he]; exact hne)
      rw [hnone]
      simpa using ih (List.nodup_cons.mp hnd).2 s h x

theorem dictGet_keyed_map {β : Type} (g : Nat → β) (sid : Nat) :
    ∀ (l : List Nat) (x : Nat),
      dictGet (l.map (fun pid => ((sid, pid), g pid))) (sid, x)
        = if x ∈ l then some (g x) else none
  | [], _ => rfl
  | p :: rest, x => by
    simp only [List.map_cons, dictGet]
    by_cases h : p = x
    · subst h; simp
    · have hxp : ¬(x = p) := fun hh => h hh.symm
      rw [if_neg (by simp [h] : ¬((sid, p) = (sid, x)))]
      rw [dictGet_keyed_map g sid rest x]
      simp [List.mem_cons, hxp]

theorem sp_lookup_char (inp : SolverInput) (s : Section)
    (hnd : (inp.sections.map Section.id).Nodup) (hs : s ∈ inp.sections) (pid : Nat) :
    dictGet (create_variables inp).sp (s.id, pid)
      = if pid ∈ candidatePatternIds inp s then some (patternLitFor s pid) else none := by
  have hk : ∀ s' e, e ∈ sp_entries_for inp s' → e.1.1 = s'.id := by
    intro s' e he
    obtain ⟨p, _, rfl⟩ := List.mem_map.mp he
    rfl
  have hblocks := dictGet_flatMap_blocks (sp_entries_for inp) hk inp.sections hnd s hs pid
  rw [show (create_variables inp).sp = inp.sections.flatMap (sp_entries_for inp) from rfl,
    hblocks]
  exact dictGet_keyed_map (patternLitFor s) s.id (candidatePatternIds inp s) pid

theorem sr_lookup_char (inp : SolverInput) (s : Section)
    (hnd : (inp.sections.map Section.id).Nodup) (hs : s ∈ inp.sections) (rid : Nat) :
    dictGet (create_variables inp).sr (s.id, rid)
      = if rid ∈ candidateRoomIds inp s then some (roomLitFor s rid) else none := by
  have hk : ∀ s' e, e ∈ sr_entries_for inp s' → e.1.1 = s'.id := by
    intro s' e he
    obtain ⟨p, _, rfl⟩ := List.mem_map.mp he
    rfl
  have hblocks := dictGet_flatMap_blocks (sr_entries_for inp) hk inp.sections hnd s hs rid
  rw [show (create_variables inp).sr = inp.sections.flatMap (sr_entries_for inp) from rfl,
    hblocks]
  exact dictGet_keyed_map (roomLitFor s) s.id (candidateRoomIds inp s) rid

theorem si_lookup_char (inp : SolverInput) (s : Section)
    (hnd : (inp.sections.map Section.id).Nodup) (hs : s ∈ inp.sections) (iid : Nat) :
    dictGet (create_variables inp).si (s.id, iid)
      = if iid ∈ potentialInstructorIds s then some (Lit.var (.si s.id iid)) else none := by
  have hk : ∀ s' e, e ∈ si_entries_for s' → e.1.1 = s'.id := by
    intro s' e he
    obtain ⟨p, _, rfl⟩ := List.mem_map.mp he
    rfl
  have hblocks := dictGet_flatMap_blocks si_entries_for hk inp.sections hnd s hs iid
  rw [show (create_variables inp).si = inp.sections.flatMap si_entries_for from rfl, hblocks]
  exact dictGet_keyed_map (fun i => Lit.var (.si s.id i)) s.id (potentialInstructorIds s) iid

/-- Claim C4, the counterexample: the factory allocates a pattern variable
for the unknown allowed id 99 and none for the input's only pattern 1, so
the allocated set is the raw allowed set, not its intersection with the
input's patterns (the claimed intersection would be empty here). -/
theorem C4_no_intersection_counterexample :
    dictGet (create_variables c4Input).sp (10, 99) = some (Lit.var (.sp 10 99))
    ∧ dictGet (create_variables c4Input).sp (10, 1) = none
    ∧ (99 ∉ c4Input.meeting_patterns.map MeetingPattern.id)
    ∧ (c4Input.sections.map Section.allowed_meeting_pattern_ids) = [some [99]] :=
  ⟨by decide, by decide, by decide, by decide⟩

/-- Claim C4 as amended: for a section of the input (section ids distinct),
the factory's pattern table holds an entry for exactly the ids of the
allowed set when that set is present and non-empty (no intersection with
the input's patterns is taken), and for all input pattern ids otherwise;
the entry is the constant 1 or 0 dictated by `fixed_meeting_pattern_id`
when that is set and a decision variable otherwise.  Rooms are handled
analogously. -/
theorem C4_variable_factory_allocation (inp : SolverInput) (s : Section)
    (hnd : (inp.sections.map Section.id).Nodup) (hs : s ∈ inp.sections) :
    (∀ pid : Nat,
      dictGet (create_variables inp).sp (s.id, pid)
        = if pid ∈ (match s.allowed_meeting_pattern_ids with
                    | some l => if l.isEmpty then inp.meeting_patterns.map MeetingPattern.id else l
                    | none => inp.meeting_patterns.map MeetingPattern.id) then
            some (match s.fixed_meeting_pattern_id with
                  | some f => Lit.const (if pid = f then 1 else 0)
                  | none => Lit.var (.sp s.id pid))
          else none)
    ∧ (∀ rid : Nat,
      dictGet (create_variables inp).sr (s.id, rid)
        = if rid ∈ (match s.allowed_room_ids with
                    | some l => if l.isEmpty then inp.rooms.map Room.id else l
                    | none => inp.rooms.map Room.id) then
            some (match s.fixed_room_id with
                  | some f => Lit.const (if rid = f then 1 else 0)
                  | none => Lit.var (.sr s.id rid))
          else none) := by
  constructor
  · intro pid
    rw [sp_lookup_char inp s hnd hs pid]
    have hcand : candidatePatternIds inp s
        = (match s.allowed_meeting_pattern_ids with
           | some l => if l.isEmpty then inp.meeting_patterns.map MeetingPattern.id else l
           | none => inp.meeting_patterns.map MeetingPattern.id) := by
      unfold candidatePatternIds pyTruthy
      cases h : s.allowed_meeting_pattern_ids with
      | none => simp
      | some l => cases l <;> simp
    rw [hcand, show patternLitFor s pid
        = (match s.fixed_meeting_pattern_id with
           | some f => Lit.const (if pid = f then 1 else 0)
           | none => Lit.var (.sp s.id pid)) from rfl]
  · intro rid
    rw [sr_lookup_char inp s hnd hs rid]
    have hcand : candidateRoomIds inp s
        = (match s.allowed_room_ids with
           | some l => if l.isEmpty then inp.rooms.map Room.id else l
           | none => inp.rooms.map Room.id) := by
      unfold candidateRoomIds pyTruthy
      cases h : s.allowed_room_ids with
      | none => simp
      | some l => cases l <;> simp
    rw [hcand, show roomLitFor s rid
        = (match s.fixed_room_id with
           | some f => Lit.const (if rid = f then 1 else 0)
           | none => Lit.var (.sr s.id rid)) from rfl]

/-- Witness of the amended claim C4 at `c4Input`: the single section's
entry set is exactly `[99]`. -/
theorem C4_variable_factory_allocation_witness :
    dictGet (create_variables c4Input).sp (10, 99) = some (Lit.var (.sp 10 99))
    ∧ dictGet (create_variables c4Input).sp (10, 1) = none := by
  have h := C4_variable_factory_allocation c4Input c4Section
    (by decide) (by simp [c4Input])
  refine ⟨?_, ?_⟩
  · show dictGet (create_variables c4Input).sp (c4Section.id, 99)
      = some (Lit.var (.sp c4Section.id 99))
    rw [h.1 99]
    decide
  · show dictGet (create_variables c4Input).sp (c4Section.id, 1) = none
    rw [h.1 1]
    decide

/-- Claim C10: at the factory's interface, an explicitly empty allowed set
behaves, field by field, exactly like an unspecified one.  If only the
allowed-pattern set is explicitly empty (the room field arbitrary), the
candidate pattern ids fall back to all input patterns and every per-section
variable table and creation constraint coincides with those of the section
whose pattern field alone is `None`; symmetrically, if only the allowed-room
set is explicitly empty, everything coincides with the section whose room
field alone is `None`. -/
theorem C10_explicit_empty_allowed_is_unrestricted (inp : SolverInput) (s : Section) :
    (s.allowed_meeting_pattern_ids = some [] →
      candidatePatternIds inp s = inp.meeting_patterns.map (·.id)
      ∧ sp_entries_for inp s
          = sp_entries_for inp { s with allowed_meeting_pattern_ids := none }
      ∧ sr_entries_for inp s
          = sr_entries_for inp { s with allowed_meeting_pattern_ids := none }
      ∧ srp_entries_for inp s
          = srp_entries_for inp { s with allowed_meeting_pattern_ids := none }
      ∧ si_entries_for s
          = si_entries_for { s with allowed_meeting_pattern_ids := none }
      ∧ creation_cons_for inp s
          = creation_cons_for inp { s with allowed_meeting_pattern_ids := none })
    ∧ (s.allowed_room_ids = some [] →
      candidateRoomIds inp s = inp.rooms.map (·.id)
      ∧ sp_entries_for inp s
          = sp_entries_for inp { s with allowed_room_ids := none }
      ∧ sr_entries_for inp s
          = sr_entries_for inp { s with allowed_room_ids := none }
      ∧ srp_entries_for inp s
          = srp_entries_for inp { s with allowed_room_ids := none }
      ∧ si_entries_for s
          = si_entries_for { s with allowed_room_ids := none }
      ∧ creation_cons_for inp s
          = creation_cons_for inp { s with allowed_room_ids := none }) := by
  constructor
  · intro hp
    have hcp : candidatePatternIds inp s = inp.meeting_patterns.map (·.id) := by
      unfold candidatePatternIds
      rw [hp]
      rfl
    have hcp' : candidatePatternIds inp { s with allowed_meeting_pattern_ids := none }
        = inp.meeting_patterns.map (·.id) := rfl
    have hcr' : candidateRoomIds inp { s with allowed_meeting_pattern_ids := none }
        = candidateRoomIds inp s := rfl
    have hsp : sp_entries_for inp s
        = sp_entries_for inp { s with allowed_meeting_pattern_ids := none } := by
      unfold sp_entries_for
      rw [hcp, hcp']
      rfl
    have hsr : sr_entries_for inp s
        = sr_entries_for inp { s with allowed_meeting_pattern_ids := none } := by
      unfold sr_entries_for
      rw [hcr']
      rfl
    refine ⟨hcp, hsp, hsr, ?_, rfl, ?_⟩
    · unfold srp_entries_for
      rw [hcp, hcp', hcr']
    · unfold creation_cons_for
      rw [hcp, hcp', hcr', hsp, hsr]
      rfl
  · intro hr
    have hcr : candidateRoomIds inp s = inp.rooms.map (·.id) := by
      unfold candidateRoomIds
      rw [hr]
      rfl
    have hcr' : candidateRoomIds inp { s with allowed_room_ids := none }
        = inp.rooms.map (·.id) := rfl
    have hcp' : candidatePatternIds inp { s with allowed_room_ids := none }
        = candidatePatternIds inp s := rfl
    have hsp : sp_entries_for inp s
        = sp_entries_for inp { s with allowed_room_ids := none } := by
      unfold sp_entries_for
      rw [hcp']
      rfl
    have hsr : sr_entries_for inp s
        = sr_entries_for inp { s with allowed_room_ids := none } := by
      unfold sr_entries_for
      rw [hcr, hcr']
      rfl
    refine ⟨hcr, hsp, hsr, ?_, rfl, ?_⟩
    · unfold srp_entries_for
      rw [hcr, hcr', hcp']
    · unfold creation_cons_for
      rw [hcr, hcr', hcp', hsp, hsr]
      rfl

/-- Witness of claim C10 at concrete sections, each with exactly one field
explicitly empty. -/
theorem C10_explicit_empty_allowed_witness :
    candidatePatternIds c2Input
        { baseSection with allowed_meeting_pattern_ids := some [] }
      = [1, 2, 3]
    ∧ candidateRoomIds c2Input
        { baseSection with allowed_room_ids := some [] }
      = [20] := by
  have h1 := (C10_explicit_empty_allowed_is_unrestricted c2Input
    { baseSection with allowed_meeting_pattern_ids := some [] }).1 rfl
  have h2 := (C10_explicit_empty_allowed_is_unrestricted c2Input
    { baseSection with allowed_room_ids := some [] }).2 rfl
  exact ⟨by rw [h1.1]; rfl, by rw [h2.1]; rfl⟩

theorem commit_row_published_fixed (now svid : Nat) (r : ScheduleVersionRow)
    (h : r.status = "published") : commit_row now svid r = r := by
  unfold commit_row
  rw [if_neg]
  rintro ⟨_, hd⟩
  rw [h] at hd
  exact absurd hd (by decide)

theorem commit_row_idem (now now2 svid : Nat) (r : ScheduleVersionRow) :
    commit_row now2 svid (commit_row now svid r) = commit_row now svid r := by
  by_cases h1 : r.id = svid ∧ r.status = "draft"
  · have h2 : commit_row now svid r
        = { r with status := "published", published_at := some now, updated_at := some now } := by
      unfold commit_row
      rw [if_pos h1]
    rw [h2]
    exact commit_row_published_fixed now2 svid _ rfl
  · have h2 : commit_row now svid r = r := by
      unfold commit_row
      rw [if_neg h1]
    rw [h2]
    unfold commit_row
    rw [if_neg h1]

/-- Claim C9: committing a draft version publishes it with the commit
timestamp; a published version's row is left unchanged by the UPDATE's
`status = 'draft'` guard, so the operation is idempotent on the whole
stored state; and in both cases the returned count is the number of live
`section_assignments` rows of the version. -/
theorem C9_commit_schedule_version_idempotent_publish (now now2 svid : Nat) (st : DbState) :
    (∀ r ∈ st.schedule_versions, r.id = svid → r.status = "draft" →
      ({ r with status := "published", published_at := some now, updated_at := some now }
          : ScheduleVersionRow)
        ∈ (commit_schedule_version now svid st).1.schedule_versions)
    ∧ (∀ r : ScheduleVersionRow, r.status = "published" → commit_row now svid r = r)
    ∧ (commit_schedule_version now2 svid (commit_schedule_version now svid st).1).1
        = (commit_schedule_version now svid st).1
    ∧ (commit_schedule_version now svid st).2
        = (st.section_assignments.filter (fun a =>
            decide (a.schedule_version_id = svid) && decide (a.valid_to = none))).length
    ∧ (commit_schedule_version now2 svid (commit_schedule_version now svid st).1).2
        = (commit_schedule_version now svid st).2 := by
  refine ⟨?_, fun r h => commit_row_published_fixed now svid r h, ?_, rfl, rfl⟩
  · intro r hr hid hst
    refine List.mem_map.mpr ⟨r, hr, ?_⟩
    unfold commit_row
    rw [if_pos ⟨hid, hst⟩]
  · have hmap : (st.schedule_versions.map (commit_row now svid)).map (commit_row now2 svid)
        = st.schedule_versions.map (commit_row now svid) := by
      rw [List.map_map]
      have hfun : (commit_row now2 svid ∘ commit_row now svid) = commit_row now svid :=
        funext (fun r => commit_row_idem now now2 svid r)
      rw [hfun]
    show ({ (commit_schedule_version now svid st).1 with
            schedule_versions :=
              (st.schedule_versions.map (commit_row now svid)).map (commit_row now2 svid) }
          : DbState)
        = (commit_schedule_version now svid st).1
    rw [hmap]
    rfl

/-- Witness of claim C9 on `c9Db`: version 5 is published with timestamp
50, the returned count is 2 (one solver row and one manual row are live),
and a second commit at time 60 leaves the state fixed. -/
theorem C9_commit_schedule_version_witness :
    ({ id := 5, status := "published", published_at := some 50, updated_at := some 50 }
        : ScheduleVersionRow)
      ∈ (commit_schedule_version 50 5 c9Db).1.schedule_versions
    ∧ (commit_schedule_version 50 5 c9Db).2 = 2
    ∧ (commit_schedule_version 60 5 (commit_schedule_version 50 5 c9Db).1).1
        = (commit_schedule_version 50 5 c9Db).1 := by
  have h := C9_commit_schedule_version_idempotent_publish 50 60 5 c9Db
  refine ⟨?_, by decide, h.2.2.1⟩
  have hm := h.1 { id := 5, status := "draft", published_at := none, updated_at := none }
    (by decide) rfl rfl
  simpa using hm

theorem mem_issues_pattern_char (inp : SolverInput) (s : Section) (i : ValidationIssue)
    (hi : i ∈ issues_for_section inp s) (hty : i.itype = "no_valid_patterns") :
    (pyOrIds s.allowed_meeting_pattern_ids (inp.meeting_patterns.map MeetingPattern.id)).isEmpty
        = true
    ∧ i.section_id = s.id := by
  unfold issues_for_section at hi
  rcases List.mem_append.mp hi with h | h
  · by_cases hv : (inp.rooms.filter (fun r =>
        decide (r.id ∈ pyOrIds s.allowed_room_ids (inp.rooms.map Room.id))
          && decide (s.expected_enrollment ≤ r.capacity))).isEmpty
    · rw [if_pos hv] at h
      have : i.itype = "no_valid_rooms" := by
        rcases List.mem_singleton.mp h with rfl
        rfl
      rw [hty] at this
      exact absurd this (by decide)
    · rw [if_neg hv] at h
      cases h
  · by_cases hp : (pyOrIds s.allowed_meeting_pattern_ids
        (inp.meeting_patterns.map MeetingPattern.id)).isEmpty
    · rw [if_pos hp] at h
      rcases List.mem_singleton.mp h with rfl
      exact ⟨hp, rfl⟩
    · rw [if_neg hp] at h
      cases h

theorem pyOrIds_empty_iff (o : Option (List Nat)) (d : List Nat) :
    (pyOrIds o d).isEmpty = true ↔ (pyTruthy o = false ∧ d = []) := by
  unfold pyOrIds
  cases o with
  | none => simp [pyTruthy, List.isEmpty_iff]
  | some l =>
    cases l with
    | nil => simp [pyTruthy, List.isEmpty_iff]
    | cons a t => simp [pyTruthy, List.isEmpty_iff]

/-- Claim C6, counterexample: a section whose allowed-pattern set is
explicitly empty while the input does have a pattern produces no issue at
all — `validate_input` returns `valid = true` with an empty issue list,
not the claimed `no_valid_patterns` issue. -/
theorem C6_explicit_empty_allowed_not_reported :
    validate_input c6Input
      = { valid := true, issues := [], section_count := 1, room_count := 1, pattern_count := 1 }
    ∧ (c6Input.sections.map Section.allowed_meeting_pattern_ids) = [some []]
    ∧ c6Input.meeting_patterns ≠ [] :=
  ⟨by decide, by decide, by decide⟩

/-- Claim C6 as amended: `validate_input` never raises (it is a total
function here); `valid` is true exactly when the issue list is empty; and
a `no_valid_patterns` issue is reported for a section exactly when its
allowed set is unspecified-or-empty (Python-falsy, so the `or` fallback
applies) and the input has no meeting patterns at all — an explicitly
empty allowed set with patterns present falls back to all patterns and is
not reported. -/
theorem C6_validate_valid_iff_no_issues (inp : SolverInput)
    (hnd : (inp.sections.map Section.id).Nodup) :
    ((validate_input inp).valid = true ↔ (validate_input inp).issues = [])
    ∧ ∀ s ∈ inp.sections,
        ((∃ i ∈ (validate_input inp).issues,
            i.itype = "no_valid_patterns" ∧ i.section_id = s.id)
         ↔ (pyTruthy s.allowed_meeting_pattern_ids = false ∧ inp.meeting_patterns = [])) := by
  constructor
  · show (decide ((validate_input inp).issues.length = 0) = true ↔ _)
    rw [decide_eq_true_iff]
    exact List.length_eq_zero
  · intro s hs
    constructor
    · rintro ⟨i, hi, hty, hsid⟩
      obtain ⟨s', hs', hmem⟩ := List.mem_flatMap.mp hi
      obtain ⟨hempty, hsid'⟩ := mem_issues_pattern_char inp s' i hmem hty
      have hss : s' = s := by
        have := List.inj_on_of_nodup_map hnd
        exact this hs' hs (by rw [← hsid, hsid'])
      subst hss
      obtain ⟨h1, h2⟩ := (pyOrIds_empty_iff _ _).mp hempty
      exact ⟨h1, by
        cases hpats : inp.meeting_patterns with
        | nil => rfl
        | cons a t => rw [hpats] at h2; cases h2⟩
    · rintro ⟨h1, h2⟩
      have hempty : (pyOrIds s.allowed_meeting_pattern_ids
          (inp.meeting_patterns.map MeetingPattern.id)).isEmpty = true :=
        (pyOrIds_empty_iff _ _).mpr ⟨h1, by rw [h2]; rfl⟩
      refine ⟨{ itype := "no_valid_patterns", section_id := s.id,
                message := "No allowed meeting patterns" }, ?_, rfl, rfl⟩
      refine List.mem_flatMap.mpr ⟨s, hs, ?_⟩
      unfold issues_for_section
      refine List.mem_append.mpr (Or.inr ?_)
      rw [if_pos hempty]
      exact List.mem_singleton.mpr rfl

/-- Witness of the amended claim C6 at an input with no meeting patterns
at all: there the issue is reported and `valid` is false. -/
theorem C6_validate_valid_iff_no_issues_witness :
    (∃ i ∈ (validate_input { c6Input with meeting_patterns := [] }).issues,
        i.itype = "no_valid_patterns" ∧ i.section_id = 10)
    ∧ (validate_input c6Input).valid = true := by
  have h := C6_validate_valid_iff_no_issues { c6Input with meeting_patterns := [] } (by decide)
  refine ⟨?_, by decide⟩
  have hs : c6Section ∈ ({ c6Input with meeting_patterns := [] } : SolverInput).sections := by
    simp [c6Input]
  have := (h.2 c6Section hs).mpr ⟨rfl, rfl⟩
  simpa [c6Section] using this

theorem satisfies_mem {σ : Valuation} {cs : List Cons} (hsat : satisfies σ cs = true)
    {c : Cons} (hc : c ∈ cs) : Cons.check σ c = true :=
  List.all_eq_true.mp hsat c hc

theorem scan_first_spec {α : Type} (σ : Valuation) (m : List ((Nat × Nat) × Lit))
    (sid : Nat) (key : α → Nat) :
    ∀ (l : List α) (x : α), scan_first σ m sid key l = some x →
      x ∈ l ∧ ∃ lit, dictGet m (sid, key x) = some lit ∧ lit.eval σ = 1 := by
  intro l
  induction l with
  | nil => intro x hx; cases hx
  | cons a rest ih =>
    intro x hx
    unfold scan_first at hx
    split at hx
    next l heq =>
      split at hx
      next hv =>
        cases hx
        exact ⟨List.mem_cons_self a rest, l, heq, hv⟩
      next hv =>
        obtain ⟨hmem, h2⟩ := ih x hx
        exact ⟨List.mem_cons_of_mem a hmem, h2⟩
    next heq =>
      obtain ⟨hmem, h2⟩ := ih x hx
      exact ⟨List.mem_cons_of_mem a hmem, h2⟩

theorem capacity_cons_mem (inp : SolverInput) (vt : VarTables)
    {s : Section} (hs : s ∈ inp.sections) {room : Room} (hr : room ∈ inp.rooms)
    {v : Lit} (hlit : dictGet vt.sr (s.id, room.id) = some v)
    (hcap : room.capacity < s.expected_enrollment) :
    consEqZero v ∈ add_room_capacity_constraints inp vt := by
  unfold add_room_capacity_constraints
  refine List.mem_flatMap.mpr ⟨s, hs, List.mem_flatMap.mpr ⟨room, hr, ?_⟩⟩
  rw [hlit]
  show consEqZero v ∈ (if room.capacity < s.expected_enrollment then [consEqZero v] else [])
  rw [if_pos hcap]
  exact List.mem_singleton.mpr rfl

theorem buildModel_ok_parts (inp : SolverInput) (m : Model)
    (h : buildModel inp = .ok m) :
    m.vt = create_variables inp
    ∧ (∀ c ∈ add_room_capacity_constraints inp (create_variables inp), c ∈ m.cons) := by
  simp only [buildModel] at h
  split at h
  next e heq => cases h
  next ic heq =>
    cases h
    constructor
    · rfl
    · intro c hc
      show c ∈ _ ++ _ ++ _ ++ _ ++ _ ++ _ ++ _ ++ _ ++ _ ++ _
      simp only [List.mem_append]
      exact Or.inl (Or.inl (Or.inl (Or.inl (Or.inl (Or.inr hc)))))

/-- Claim C7: in every solution satisfying the generated model, a section
extracted with `is_assigned = true` is placed in an input room whose
capacity covers the section's expected enrollment — the capacity
generator's forbid-as-zero constraint rules out every smaller room. -/
theorem C7_capacity_respected (inp : SolverInput) (m : Model) (σ : Valuation)
    (hm : buildModel inp = .ok m) (hsat : satisfies σ m.cons = true)
    (s : Section) (hs : s ∈ inp.sections)
    (hassigned : (extract_for inp m.vt σ s).is_assigned = true) :
    ∃ r ∈ inp.rooms, (extract_for inp m.vt σ s).room_id = some r.id
      ∧ s.expected_enrollment ≤ r.capacity := by
  have hroom : (scan_first σ m.vt.sr s.id Room.id inp.rooms).isSome = true := by
    have : (extract_for inp m.vt σ s).is_assigned
        = ((scan_first σ m.vt.sp s.id MeetingPattern.id inp.meeting_patterns).isSome
            && (scan_first σ m.vt.sr s.id Room.id inp.rooms).isSome) := rfl
    rw [this] at hassigned
    exact ((Bool.and_eq_true _ _).mp hassigned).2
  obtain ⟨r, hrsome⟩ := Option.isSome_iff_exists.mp hroom
  obtain ⟨hrmem, lit, hlit, heval⟩ := scan_first_spec σ m.vt.sr s.id Room.id inp.rooms r hrsome
  refine ⟨r, hrmem, ?_, ?_⟩
  · show (scan_first σ m.vt.sr s.id Room.id inp.rooms).map Room.id = some r.id
    rw [hrsome]
    rfl
  · by_contra hcap
    push_neg at hcap
    obtain ⟨hvt, hsub⟩ := buildModel_ok_parts inp m hm
    rw [hvt] at hlit
    have hc := capacity_cons_mem inp (create_variables inp) hs hrmem hlit hcap
    have hcheck := satisfies_mem hsat (hsub _ hc)
    simp only [consEqZero, Cons.check, lsum, List.map_cons, List.map_nil, List.sum_cons,
      List.sum_nil, decide_eq_true_eq] at hcheck
    rw [heval] at hcheck
    simp at hcheck

/-- Witness of claim C7 at `c7Input` with its all-assigned solution. -/
theorem C7_capacity_respected_witness :
    ∃ r ∈ c7Input.rooms,
      (extract_for c7Input (modelOf c7Input).vt c7Sol c7Section).room_id = some r.id
      ∧ c7Section.expected_enrollment ≤ r.capacity := by
  have hm : buildModel c7Input = .ok (modelOf c7Input) := by rfl
  exact C7_capacity_respected c7Input (modelOf c7Input) c7Sol hm (by decide)
    c7Section (by decide) (by decide)

theorem enumFrom_map_snd {α β : Type} (g : α → β) :
    ∀ (n : Nat) (l : List α), (List.enumFrom n l).map (fun p => g p.2) = l.map g
  | _, [] => rfl
  | n, a :: rest => by
    simp only [List.enumFrom, List.map_cons]
    rw [enumFrom_map_snd g (n + 1) rest]

theorem new_rows_view (svid start : Nat) (assigned : List Assignment) :
    (new_assignment_rows svid start assigned).map
        (fun r => (r.section_id, r.meeting_pattern_id, r.date_pattern_id, r.room_id))
      = assigned.map (fun a => (a.section_id, a.meeting_pattern_id, a.date_pattern_id, a.room_id)) := by
  unfold new_assignment_rows
  rw [List.map_map]
  exact enumFrom_map_snd
    (fun a : Assignment => (a.section_id, a.meeting_pattern_id, a.date_pattern_id, a.room_id))
    0 assigned

theorem filter_expired_eq_nil (now svid : Nat) (rows : List SectionAssignmentRow) :
    (expire_live_solver_rows now svid rows).filter (live_solver_for svid) = [] := by
  induction rows with
  | nil => rfl
  | cons r rest ih =>
    show ((if live_solver_for svid r then { r with valid_to := some now } else r) ::
          expire_live_solver_rows now svid rest).filter (live_solver_for svid) = []
    by_cases h : live_solver_for svid r = true
    · rw [if_pos h]
      have hf : live_solver_for svid { r with valid_to := some now } = false := by
        unfold live_solver_for
        simp
      simp [List.filter_cons, hf, ih]
    · rw [if_neg h]
      have hf : live_solver_for svid r = false := by
        revert h
        cases live_solver_for svid r <;> simp
      simp [List.filter_cons, hf, ih]

theorem filter_new_rows_eq (svid start : Nat) (assigned : List Assignment) :
    (new_assignment_rows svid start assigned).filter (live_solver_for svid)
      = new_assignment_rows svid start assigned := by
  apply List.filter_eq_self.mpr
  intro r hr
  obtain ⟨p, _, rfl⟩ := List.mem_map.mp hr
  unfold live_solver_for
  simp

/-- Claim C3: the five persistence steps of `save_solver_output` run
inside one transaction.  When any step fails the caller-visible state is
exactly the input state and the error propagates; on success the live
solver-sourced rows of the schedule version are exactly one row per
assigned section of the output (old and new are never mixed), every
previously-live solver row persists only in its expired form, and every
other stored row survives unchanged. -/
theorem C3_save_solver_output_atomic (now svid : Nat) (out : SolverOutputM) (st : DbState) :
    (isOkE (save_solver_output now svid out st) = false → run_save now svid out st = st)
    ∧ (∀ st', save_solver_output now svid out st = .ok st' →
        ((st'.section_assignments.filter (live_solver_for svid)).map
            (fun r => (r.section_id, r.meeting_pattern_id, r.date_pattern_id, r.room_id))
          = (out.assignments.filter Assignment.is_assigned).map
              (fun a => (a.section_id, a.meeting_pattern_id, a.date_pattern_id, a.room_id)))
        ∧ (∀ r ∈ st.section_assignments, live_solver_for svid r = true →
            ({ r with valid_to := some now } : SectionAssignmentRow) ∈ st'.section_assignments)
        ∧ (∀ r ∈ st.section_assignments, live_solver_for svid r = false →
            r ∈ st'.section_assignments)) := by
  constructor
  · intro herr
    unfold run_save
    cases hsave : save_solver_output now svid out st with
    | ok st' =>
      rw [hsave] at herr
      cases herr
    | error e => rfl
  · intro st' hsave
    have hsa : st'.section_assignments
        = expire_live_solver_rows now svid st.section_assignments
          ++ new_assignment_rows svid st.next_row_id
              (out.assignments.filter (·.is_assigned)) := by
      simp only [save_solver_output] at hsave
      split at hsave
      next e heq => cases hsave
      next vrows heq =>
        cases hsave
        rfl
    refine ⟨?_, ?_, ?_⟩
    · rw [hsa, List.filter_append, filter_expired_eq_nil, List.nil_append,
        filter_new_rows_eq, new_rows_view]
    · intro r hr hlive
      rw [hsa]
      refine List.mem_append.mpr (Or.inl ?_)
      refine List.mem_map.mpr ⟨r, hr, ?_⟩
      rw [if_pos hlive]
    · intro r hr hlive
      rw [hsa]
      refine List.mem_append.mpr (Or.inl ?_)
      refine List.mem_map.mpr ⟨r, hr, ?_⟩
      rw [if_neg (by rw [hlive]; exact Bool.false_ne_true)]

/-- Witness of claim C3: the output with a null `constraint_type_id`
aborts the save and leaves `c9Db` untouched, while the well-formed output
commits, leaving exactly the one assigned section live. -/
theorem C3_save_solver_output_atomic_witness :
    run_save 50 5 c3BadOutput c9Db = c9Db
    ∧ isOkE (save_solver_output 50 5 c3BadOutput c9Db) = false
    ∧ ((run_save 50 5 c3GoodOutput c9Db).section_assignments.filter (live_solver_for 5)).map
        (fun r => (r.section_id, r.meeting_pattern_id, r.date_pattern_id, r.room_id))
      = [(10, some 1, none, some 20)] := by
  refine ⟨(C3_save_solver_output_atomic 50 5 c3BadOutput c9Db).1 (by decide), by decide, ?_⟩
  have hok : save_solver_output 50 5 c3GoodOutput c9Db
      = .ok (run_save 50 5 c3GoodOutput c9Db) := by rfl
  have h := ((C3_save_solver_output_atomic 50 5 c3GoodOutput c9Db).2 _ hok).1
  rw [h]
  decide

theorem mem_of_mem_dedupAux : ∀ (l seen : List Nat) (x : Nat), x ∈ dedupAux l seen → x ∈ l
  | [], _, _, h => absurd h (List.not_mem_nil _)
  | y :: ys, seen, x, h => by
    unfold dedupAux at h
    by_cases hy : y ∈ seen
    · rw [if_pos hy] at h
      exact List.mem_cons_of_mem y (mem_of_mem_dedupAux ys seen x h)
    · rw [if_neg hy] at h
      rcases List.mem_cons.mp h with rfl | h2
      · exact List.mem_cons_self x ys
      · exact List.mem_cons_of_mem y (mem_of_mem_dedupAux ys (y :: seen) x h2)

theorem isSome_dictGet_of_key {κ β : Type} [DecidableEq κ] (k : κ) :
    ∀ m : List (κ × β), (∃ v, (k, v) ∈ m) → (dictGet m k).isSome = true
  | [], ⟨_, hv⟩ => absurd hv (List.not_mem_nil _)
  | (k', v') :: rest, ⟨v, hv⟩ => by
    unfold dictGet
    by_cases hk : k' = k
    · rw [if_pos hk]
      rfl
    · rw [if_neg hk]
      rcases List.mem_cons.mp hv with heq | h2
      · exact absurd (congrArg Prod.fst heq.symm) hk
      · exact isSome_dictGet_of_key k rest ⟨v, h2⟩

theorem isSome_dictGet_of_mem_map_pids (m : List ((Nat × Nat) × Lit)) (sid x : Nat)
    (h : x ∈ map_pids_for m sid) : (dictGet m (sid, x)).isSome = true := by
  unfold map_pids_for at h
  have hx := mem_of_mem_dedupAux _ _ _ h
  obtain ⟨e, he, hcond⟩ := List.mem_filterMap.mp hx
  by_cases hs : e.1.1 = sid
  · rw [if_pos hs] at hcond
    cases hcond
    refine isSome_dictGet_of_key _ m ⟨e.2, ?_⟩
    have : e.1 = (sid, e.1.2) := by
      rw [← hs]
    rw [← this]
    exact he
  · rw [if_neg hs] at hcond
    cases hcond

theorem lsum_ones (σ : Valuation) (ls : List Lit) :
    lsum σ (ls.map (fun l => (1, l))) = (ls.map (Lit.eval σ)).sum := by
  induction ls with
  | nil => rfl
  | cons a rest ih =>
    simp only [List.map_cons, lsum, List.sum_cons] at *
    rw [← ih]
    simp [lsum]

theorem lsum_append (σ : Valuation) (a b : List (Int × Lit)) :
    lsum σ (a ++ b) = lsum σ a + lsum σ b := by
  simp [lsum, List.map_append, List.sum_append]

theorem two_ones_le_sum {α : Type} (f : α → Int) :
    ∀ l : List α, (∀ x ∈ l, 0 ≤ f x) → ∀ a b, a ∈ l → b ∈ l → a ≠ b →
      f a = 1 → f b = 1 → 2 ≤ (l.map f).sum := by
  intro l
  induction l with
  | nil => intro _ a b ha; cases ha
  | cons x xs ih =>
    intro hpos a b ha hb hab hfa hfb
    simp only [List.map_cons, List.sum_cons]
    rcases List.mem_cons.mp ha with rfl | ha2
    · have hb2 : b ∈ xs := by
        rcases List.mem_cons.mp hb with rfl | h
        · exact absurd rfl hab
        · exact h
      have : f b ≤ (xs.map f).sum :=
        List.single_le_sum (by
          intro y hy
          obtain ⟨z, hz, rfl⟩ := List.mem_map.mp hy
          exact hpos z (List.mem_cons_of_mem _ hz)) _ (List.mem_map_of_mem f hb2)
      omega
    · rcases List.mem_cons.mp hb with rfl | hb2
      · have : f a ≤ (xs.map f).sum :=
          List.single_le_sum (by
            intro y hy
            obtain ⟨z, hz, rfl⟩ := List.mem_map.mp hy
            exact hpos z (List.mem_cons_of_mem b hz)) _ (List.mem_map_of_mem f ha2)
        omega
      · have hx : 0 ≤ f x := hpos x (List.mem_cons_self x xs)
        have := ih (fun y hy => hpos y (List.mem_cons_of_mem x hy)) a b ha2 hb2 hab hfa hfb
        omega

theorem exists_one_of_sum_ge {α : Type} (f : α → Int) :
    ∀ l : List α, (∀ x ∈ l, 0 ≤ f x ∧ f x ≤ 1) → 1 ≤ (l.map f).sum →
      ∃ a ∈ l, f a = 1 := by
  intro l
  induction l with
  | nil => intro _ hsum; simp at hsum
  | cons x xs ih =>
    intro hb hsum
    by_cases hx : f x = 1
    · exact ⟨x, List.mem_cons_self x xs, hx⟩
    · have hx0 : f x = 0 := by
        have := hb x (List.mem_cons_self x xs)
        omega
      simp only [List.map_cons, List.sum_cons, hx0, zero_add] at hsum
      obtain ⟨a, ha, hfa⟩ := ih (fun y hy => hb y (List.mem_cons_of_mem x hy)) hsum
      exact ⟨a, List.mem_cons_of_mem x ha, hfa⟩

theorem filterMap_eval_sum (σ : Valuation) (spm : List ((Nat × Nat) × Lit)) (sid : Nat) :
    ∀ pats : List MeetingPattern,
      ((pats.filterMap (fun p => dictGet spm (sid, p.id))).map (Lit.eval σ)).sum
        = (pats.map (fun p =>
            match dictGet spm (sid, p.id) with
            | some l => l.eval σ
            | none => 0)).sum := by
  intro pats
  induction pats with
  | nil => rfl
  | cons p rest ih =>
    simp only [List.filterMap_cons, List.map_cons, List.sum_cons]
    cases hd : dictGet spm (sid, p.id) with
    | some l =>
      simp only [List.map_cons, List.sum_cons, ih]
    | none =>
      simp only [zero_add, ih]

/-- Claim C5: for a parent candidate pattern found among the input's
patterns, the `immediately_after` generator emits `x_parent = 0` when no
child candidate pattern is compatible (common day, child start within
[parent end, parent end + 30], bounds inclusive), and otherwise the cover
`Σ x_child ≥ x_parent` over the compatible child patterns; consequently in
every 0/1 solution satisfying the emitted constraints together with the
child's exactly-one constraint, when the parent pattern is chosen the
child's chosen pattern lies in the compatible set. -/
theorem C5_immediately_after_coupling (pats : List MeetingPattern)
    (spm : List ((Nat × Nat) × Lit)) (parent child : Section)
    (ppid : Nat) (pp : MeetingPattern) (pv : Lit)
    (hpp : pattern_by_id pats ppid = some pp)
    (hpv : dictGet spm (parent.id, ppid) = some pv)
    (hmem : ppid ∈ map_pids_for spm parent.id) :
    (compat_child_pids pats spm child pp = [] →
      consEqZero pv ∈ add_immediately_after_constraint pats spm parent child)
    ∧ (compat_child_pids pats spm child pp ≠ [] →
      consSumGeLit
          ((compat_child_pids pats spm child pp).filterMap
            (fun cpid => dictGet spm (child.id, cpid))) pv
        ∈ add_immediately_after_constraint pats spm parent child)
    ∧ (∀ σ : Valuation,
        satisfies σ (add_immediately_after_constraint pats spm parent child) = true →
        (∀ pid l, dictGet spm (child.id, pid) = some l → 0 ≤ l.eval σ ∧ l.eval σ ≤ 1) →
        Cons.check σ (Cons.exactlyOne
          (pats.filterMap (fun p => dictGet spm (child.id, p.id)))) = true →
        pv.eval σ = 1 →
        ∀ cpid cl, dictGet spm (child.id, cpid) = some cl → cl.eval σ = 1 →
          cpid ∈ pats.map MeetingPattern.id →
          cpid ∈ compat_child_pids pats spm child pp) := by
  have hcvars : ∀ q qs, compat_child_pids pats spm child pp = q :: qs →
      ∃ ql rest', (compat_child_pids pats spm child pp).filterMap
          (fun cpid => dictGet spm (child.id, cpid)) = ql :: rest'
        ∧ dictGet spm (child.id, q) = some ql := by
    intro q qs hq
    have hqmem : q ∈ map_pids_for spm child.id := by
      have : q ∈ compat_child_pids pats spm child pp := by
        rw [hq]
        exact List.mem_cons_self q qs
      exact List.mem_of_mem_filter this
    obtain ⟨ql, hql⟩ := Option.isSome_iff_exists.mp
      (isSome_dictGet_of_mem_map_pids spm child.id q hqmem)
    refine ⟨ql, (qs.filterMap (fun cpid => dictGet spm (child.id, cpid))), ?_, hql⟩
    rw [hq, List.filterMap_cons, hql]
  have hemit : ∀ c : Cons,
      (match compat_child_pids pats spm child pp with
       | [] => c = consEqZero pv
       | q :: qs => c = consSumGeLit ((compat_child_pids pats spm child pp).filterMap
            (fun cpid => dictGet spm (child.id, cpid))) pv) →
      c ∈ add_immediately_after_constraint pats spm parent child := by
    intro c hc
    unfold add_immediately_after_constraint
    refine List.mem_flatMap.mpr ⟨ppid, hmem, ?_⟩
    rw [hpp, hpv]
    show c ∈ (if (compat_child_pids pats spm child pp).isEmpty then [consEqZero pv]
      else if ((compat_child_pids pats spm child pp).filterMap
          (fun cpid => dictGet spm (child.id, cpid))).isEmpty then []
      else [consSumGeLit ((compat_child_pids pats spm child pp).filterMap
          (fun cpid => dictGet spm (child.id, cpid))) pv])
    cases hcomp : compat_child_pids pats spm child pp with
    | nil =>
      rw [hcomp] at hc
      simp only [hcomp, List.isEmpty_nil, if_pos]
      exact List.mem_singleton.mpr hc
    | cons q qs =>
      rw [hcomp] at hc
      obtain ⟨ql, rest', hfm, _⟩ := hcvars q qs hcomp
      rw [hcomp] at hfm
      rw [hfm] at hc
      rw [if_neg (by simp), hfm, if_neg (by simp)]
      exact List.mem_singleton.mpr hc
  refine ⟨?_, ?_, ?_⟩
  · intro hc
    exact hemit _ (by rw [hc])
  · intro hc
    cases hcomp : compat_child_pids pats spm child pp with
    | nil => exact absurd hcomp hc
    | cons q qs => exact hemit _ (by rw [hcomp])
  · intro σ hsat hdom hone hpve cpid cl hcl hcle hcin
    by_cases hin : cpid ∈ compat_child_pids pats spm child pp
    · exact hin
    exfalso
    cases hcomp : compat_child_pids pats spm child pp with
    | nil =>
      have hz := satisfies_mem hsat (hemit (consEqZero pv) (by rw [hcomp]))
      simp only [consEqZero, Cons.check, lsum, List.map_cons, List.map_nil,
        List.sum_cons, List.sum_nil, decide_eq_true_eq] at hz
      rw [hpve] at hz
      simp at hz
    | cons q qs =>
      have hge := satisfies_mem hsat (hemit
        (consSumGeLit ((q :: qs).filterMap (fun cpid => dictGet spm (child.id, cpid))) pv)
        (by rw [hcomp]))
      simp only [consSumGeLit, Cons.check, decide_eq_true_eq] at hge
      rw [lsum_append, lsum_ones] at hge
      have hsum1 : 1 ≤ (((q :: qs).filterMap
          (fun cpid => dictGet spm (child.id, cpid))).map (Lit.eval σ)).sum := by
        have : lsum σ [(-1, pv)] = -pv.eval σ := by
          simp [lsum]
        rw [this, hpve] at hge
        omega
      have hbounds : ∀ x ∈ (q :: qs).filterMap
          (fun cpid => dictGet spm (child.id, cpid)),
          0 ≤ Lit.eval σ x ∧ Lit.eval σ x ≤ 1 := by
        intro x hx
        obtain ⟨pid2, _, hp2⟩ := List.mem_filterMap.mp hx
        exact hdom pid2 x hp2
      obtain ⟨ql, hqlmem, hqle⟩ := exists_one_of_sum_ge (Lit.eval σ) _ hbounds hsum1
      obtain ⟨qpid, hqpidmem0, hqlk⟩ := List.mem_filterMap.mp hqlmem
      have hqpidmem : qpid ∈ compat_child_pids pats spm child pp := by
        rw [hcomp]
        exact hqpidmem0
      have hqne : qpid ≠ cpid := by
        intro heq
        rw [heq] at hqpidmem
        exact hin hqpidmem
      have hqp : ∃ qp, pattern_by_id pats qpid = some qp := by
        have := List.mem_filter.mp hqpidmem
        cases hfind : pattern_by_id pats qpid with
        | some qp => exact ⟨qp, rfl⟩
        | none =>
          rw [hfind] at this
          simp at this
      obtain ⟨qp, hqpf⟩ := hqp
      have hqpmem : qp ∈ pats := List.mem_of_find?_eq_some hqpf
      have hqpid : qp.id = qpid := by
        have := List.find?_some hqpf
        exact of_decide_eq_true this
      obtain ⟨pb, hpbmem, hpbid⟩ := List.mem_map.mp hcin
      have hone' : (pats.map (fun p =>
          match dictGet spm (child.id, p.id) with
          | some l => l.eval σ
          | none => 0)).sum = 1 := by
        simp only [Cons.check, decide_eq_true_eq] at hone
        rw [← filterMap_eval_sum σ spm child.id pats]
        exact hone
      have hg2 : 2 ≤ (pats.map (fun p =>
          match dictGet spm (child.id, p.id) with
          | some l => l.eval σ
          | none => 0)).sum := by
        apply two_ones_le_sum _ pats
        · intro y hy
          cases hd : dictGet spm (child.id, y.id) with
          | some l =>
            simp only [hd]
            exact (hdom y.id l hd).1
          | none => simp only [hd]; omega
        · exact hqpmem
        · exact hpbmem
        · intro heq
          apply hqne
          rw [← hqpid, heq, hpbid]
        · simp only [hqpid, hqlk]
          exact hqle
        · simp only [hpbid, hcl]
          exact hcle
      omega

/-- Witness of claim C5 at `c5Pats`: pattern 2 (start 10 minutes after the
parent's end) is compatible, pattern 3 (110 minutes) is not; the cover
constraint is emitted and the chosen child pattern 2 is in the compatible
set. -/
theorem C5_immediately_after_coupling_witness :
    consSumGeLit [Lit.var (.sp 11 2)] (Lit.var (.sp 10 1))
      ∈ add_immediately_after_constraint c5Pats c5Spm c5Parent c5Child
    ∧ 2 ∈ compat_child_pids c5Pats c5Spm c5Child c5PatParent
    ∧ 3 ∉ compat_child_pids c5Pats c5Spm c5Child c5PatParent := by
  have h := C5_immediately_after_coupling c5Pats c5Spm c5Parent c5Child 1 c5PatParent
    (Lit.var (.sp 10 1)) (by decide) (by decide) (by decide)
  have hdom : ∀ pid l, dictGet c5Spm (c5Child.id, pid) = some l →
      0 ≤ l.eval c5Sol ∧ l.eval c5Sol ≤ 1 := by
    intro pid l hl
    show 0 ≤ l.eval c5Sol ∧ l.eval c5Sol ≤ 1
    simp only [c5Spm, dictGet] at hl
    rw [if_neg (show ((10, 1) : Nat × Nat) ≠ (c5Child.id, pid) from
      fun hcontra => absurd (show (10 : Nat) = c5Child.id from congrArg Prod.fst hcontra)
        (by decide))] at hl
    by_cases h2 : ((11, 2) : Nat × Nat) = (c5Child.id, pid)
    · rw [if_pos h2] at hl
      cases hl
      decide
    · rw [if_neg h2] at hl
      by_cases h3 : ((11, 3) : Nat × Nat) = (c5Child.id, pid)
      · rw [if_pos h3] at hl
        cases hl
        decide
      · rw [if_neg h3] at hl
        cases hl
  refine ⟨?_, ?_, by decide⟩
  · have h2 := h.2.1 (by decide)
    have : (compat_child_pids c5Pats c5Spm c5Child c5PatParent).filterMap
        (fun cpid => dictGet c5Spm (c5Child.id, cpid)) = [Lit.var (.sp 11 2)] := by decide
    rw [this] at h2
    exact h2
  · exact h.2.2 c5Sol (by decide) hdom (by decide) (by decide) 2 (Lit.var (.sp 11 2))
      (by decide) (by decide) (by decide)

theorem matches_times_equiv (pref : InstructorPreference) :
    ∀ ts : List MeetingTime,
      pattern_matches_preference_times pref ts = ts.any (spec_time_pred pref) := by
  obtain ⟨dayf, startf, endf, mpid, lvl⟩ := pref
  intro ts
  induction ts with
  | nil => cases dayf <;> rfl
  | cons mt rest ih =>
    rw [List.any_cons]
    cases dayf with
    | some d =>
      by_cases h1 : mt.day_of_week = d
      · cases startf with
        | some lo =>
          cases endf with
          | some hi =>
            by_cases h2 : (time_in_range mt.start_time lo hi
                || time_in_range mt.end_time lo hi) = true
            · simp [pattern_matches_preference_times, spec_time_pred, h1, h2]
            · simp [pattern_matches_preference_times, spec_time_pred, h1, h2, ih]
          | none =>
            simp [pattern_matches_preference_times, spec_time_pred, h1]
        | none =>
          simp [pattern_matches_preference_times, spec_time_pred, h1]
      · cases startf with
        | some lo =>
          cases endf with
          | some hi =>
            simp [pattern_matches_preference_times, spec_time_pred, h1, ih]
          | none =>
            simp [pattern_matches_preference_times, spec_time_pred, h1, ih]
        | none =>
          simp [pattern_matches_preference_times, spec_time_pred, h1, ih]
    | none =>
      cases startf with
      | some lo =>
        cases endf with
        | some hi =>
          by_cases h2 : (time_in_range mt.start_time lo hi
              || time_in_range mt.end_time lo hi) = true
          · simp [pattern_matches_preference_times, spec_time_pred, h2]
          · simp [pattern_matches_preference_times, spec_time_pred, h2, ih]
        | none =>
          simp [pattern_matches_preference_times, spec_time_pred, ih]
      | none =>
        simp [pattern_matches_preference_times, spec_time_pred, ih]

theorem matches_equiv (p : MeetingPattern) (pref : InstructorPreference) :
    pattern_matches_preference p pref = spec_matches p pref := by
  obtain ⟨dayf, startf, endf, mpid, lvl⟩ := pref
  cases mpid with
  | some mid => rfl
  | none => exact matches_times_equiv _ p.times

theorem flatMap_nil_of {α β : Type} (l : List α) (f : α → List β)
    (h : ∀ a ∈ l, f a = []) : l.flatMap f = [] := by
  induction l with
  | nil => rfl
  | cons a rest ih =>
    rw [List.flatMap_cons, h a (List.mem_cons_self a rest),
      ih (fun b hb => h b (List.mem_cons_of_mem a hb))]
    rfl

theorem mem_dedupAux_of_mem :
    ∀ (l seen : List Nat) (x : Nat), x ∈ l → x ∈ dedupAux l seen ∨ x ∈ seen
  | [], _, _, h => absurd h (List.not_mem_nil _)
  | y :: ys, seen, x, h => by
    unfold dedupAux
    by_cases hy : y ∈ seen
    · rw [if_pos hy]
      rcases List.mem_cons.mp h with rfl | h2
      · exact Or.inr hy
      · exact mem_dedupAux_of_mem ys seen x h2
    · rw [if_neg hy]
      rcases List.mem_cons.mp h with rfl | h2
      · exact Or.inl (List.mem_cons_self x _)
      · rcases mem_dedupAux_of_mem ys (y :: seen) x h2 with h3 | h3
        · exact Or.inl (List.mem_cons_of_mem y h3)
        · rcases List.mem_cons.mp h3 with rfl | h4
          · exact Or.inl (List.mem_cons_self x _)
          · exact Or.inr h4

theorem mem_dedupFirst_of_mem (l : List Nat) (x : Nat) (h : x ∈ l) :
    x ∈ dedupFirst l := by
  rcases mem_dedupAux_of_mem l [] x h with h2 | h2
  · exact h2
  · cases h2

theorem pref_emit_proj (base : Int) (s : Section) (iid : Nat) (p : MeetingPattern)
    (x : Lit) (w : Option Lit) (hbase : base ≠ 0) (ip : Nat × InstructorPreference) :
    (pref_emit base s iid p x w ip.1 ip.2).map (fun e => e.2)
      = (if spec_matches p ip.2 && decide (ip.2.preference_level ≠ .neutral)
         then some (spec_weight base ip.2.preference_level, Lit.var (.pref s.id iid p.id ip.1))
         else none) := by
  obtain ⟨idx, π⟩ := ip
  unfold pref_emit
  rw [show spec_matches p π = pattern_matches_preference p π from (matches_equiv p π).symm]
  by_cases hm : pattern_matches_preference p π = true
  · simp only [hm, Bool.not_true, Bool.false_eq_true, if_false, Bool.true_and]
    cases hl : π.preference_level with
    | prohibited =>
      rw [if_neg (show ¬(preference_penalty_value base .prohibited = 0) from fun h => hbase (by
        simp only [preference_penalty_value] at h
        omega))]
      simp [preference_penalty_value, spec_weight, Int.mul_comm]
    | discouraged =>
      rw [if_neg (show ¬(preference_penalty_value base .discouraged = 0) from fun h => hbase (by
        simp only [preference_penalty_value] at h
        omega))]
      simp [preference_penalty_value, spec_weight, Int.mul_comm]
    | neutral =>
      rw [if_pos (show preference_penalty_value base .neutral = 0 from rfl)]
      simp
    | preferred =>
      rw [if_neg (show ¬(preference_penalty_value base .preferred = 0) from fun h => hbase (by
        simp only [preference_penalty_value] at h
        omega))]
      simp [preference_penalty_value, spec_weight]
    | required =>
      rw [if_neg (show ¬(preference_penalty_value base .required = 0) from fun h => hbase (by
        simp only [preference_penalty_value] at h
        omega))]
      simp [preference_penalty_value, spec_weight]
      omega
  · have hm' : pattern_matches_preference p π = false := by
      revert hm
      cases pattern_matches_preference p π <;> simp
    simp [hm']

theorem pref_terms_eq (inp : SolverInput) (vt : VarTables)
    (hbase : wget inp.constraint_weights "instructor_time_preference" 10 ≠ 0) :
    (add_instructor_preference_penalties inp vt).2 = spec_pref_terms inp vt := by
  show (pref_emissions inp vt).map (fun e => e.2) = spec_pref_terms inp vt
  unfold pref_emissions spec_pref_terms
  rw [List.map_flatMap]
  apply List.flatMap_congr
  intro s _
  rw [List.map_flatMap]
  apply List.flatMap_congr
  intro iid _
  cases hf : inp.instructors.find? (fun i => i.id = iid) with
  | none => simp [hf]
  | some instr =>
    simp only [hf]
    by_cases hpe : instr.time_preferences.isEmpty
    · rw [if_pos hpe]
      have hnil : instr.time_preferences = [] := List.isEmpty_iff.mp hpe
      symm
      apply flatMap_nil_of
      intro p _
      cases hd : dictGet vt.sp (s.id, p.id) with
      | none => rfl
      | some x =>
        simp only [hd, hnil]
        rfl
    · rw [if_neg hpe]
      rw [List.map_flatMap]
      apply List.flatMap_congr
      intro p _
      cases hd : dictGet vt.sp (s.id, p.id) with
      | none => simp [hd]
      | some x =>
        simp only [hd]
        rw [List.map_filterMap]
        apply List.filterMap_congr
        intro ip _
        exact pref_emit_proj _ s iid p x _ hbase ip

theorem pref_g_semantics (inp : SolverInput)
    (hnd : (inp.sections.map Section.id).Nodup) (σ : Valuation)
    (hsat : satisfies σ (add_instructor_preference_penalties inp (create_variables inp)).1 = true)
    (s : Section) (hs : s ∈ inp.sections)
    (iid : Nat) (hiid : iid ∈ dedupFirst (s.assigned_instructor_ids ++ s.preferred_instructor_ids))
    (instr : Instructor) (hfind : inp.instructors.find? (fun i => i.id = iid) = some instr)
    (p : MeetingPattern) (hp : p ∈ inp.meeting_patterns)
    (x : Lit) (hx : dictGet (create_variables inp).sp (s.id, p.id) = some x)
    (ip : Nat × InstructorPreference) (hip : ip ∈ instr.time_preferences.enum)
    (hmatch : pattern_matches_preference p ip.2 = true)
    (hpv : preference_penalty_value (wget inp.constraint_weights "instructor_time_preference" 10)
        ip.2.preference_level ≠ 0) :
    Lit.eval σ (Lit.var (.pref s.id iid p.id ip.1))
      = Lit.eval σ x * Lit.eval σ
          (match dictGet (create_variables inp).si (s.id, iid) with
           | some w => w
           | none => Lit.const 1) := by
  obtain ⟨idx, π⟩ := ip
  have hne : ¬(instr.time_preferences.isEmpty = true) := by
    intro hemp
    rw [List.isEmpty_iff.mp hemp] at hip
    simp at hip
  have hmem : ∀ res,
      pref_emit (wget inp.constraint_weights "instructor_time_preference" 10) s iid p x
          (dictGet (create_variables inp).si (s.id, iid)) idx π = some res →
      res ∈ pref_emissions inp (create_variables inp) := by
    intro res hres
    simp only [pref_emissions]
    refine List.mem_flatMap.mpr ⟨s, hs, ?_⟩
    refine List.mem_flatMap.mpr ⟨iid, hiid, ?_⟩
    simp only [hfind]
    rw [if_neg hne]
    refine List.mem_flatMap.mpr ⟨p, hp, ?_⟩
    simp only [hx]
    exact List.mem_filterMap.mpr ⟨(idx, π), hip, hres⟩
  have hsub : ∀ res, res ∈ pref_emissions inp (create_variables inp) →
      ∀ c ∈ res.1, c ∈ (add_instructor_preference_penalties inp (create_variables inp)).1 := by
    intro res hres c hc
    show c ∈ (pref_emissions inp (create_variables inp)).flatMap (fun e => e.1)
    exact List.mem_flatMap.mpr ⟨res, hres, hc⟩
  cases hsi : dictGet (create_variables inp).si (s.id, iid) with
  | some w =>
    have hemit : pref_emit (wget inp.constraint_weights "instructor_time_preference" 10)
        s iid p x (some w) idx π
        = some ([boolVarRange (.pref s.id iid p.id idx),
                 Cons.mulEq (Lit.var (.pref s.id iid p.id idx)) x w],
                (preference_penalty_value
                  (wget inp.constraint_weights "instructor_time_preference" 10)
                  π.preference_level,
                 Lit.var (.pref s.id iid p.id idx))) := by
      unfold pref_emit
      simp only [hmatch, Bool.not_true, Bool.false_eq_true, if_false]
      rw [if_neg hpv]
    have hmem2 := hmem _ (by rw [hsi]; exact hemit)
    have hcons := hsub _ hmem2 (Cons.mulEq (Lit.var (.pref s.id iid p.id idx)) x w)
      (by simp)
    have hcheck := satisfies_mem hsat hcons
    simp only [Cons.check, decide_eq_true_eq] at hcheck
    simpa using hcheck
  | none =>
    have hassigned : iid ∈ s.assigned_instructor_ids := by
      by_contra hna
      have hor := mem_of_mem_dedupAux _ _ _ hiid
      rcases List.mem_append.mp hor with h1 | h2
      · exact hna h1
      · have hpot : iid ∈ potentialInstructorIds s :=
          List.mem_filter.mpr ⟨mem_dedupFirst_of_mem _ _ h2, by simpa using hna⟩
        have hchar := si_lookup_char inp s hnd hs iid
        rw [hsi, if_pos hpot] at hchar
        cases hchar
    have hemit : pref_emit (wget inp.constraint_weights "instructor_time_preference" 10)
        s iid p x none idx π
        = some ([boolVarRange (.pref s.id iid p.id idx),
                 consEqLits (Lit.var (.pref s.id iid p.id idx)) x],
                (preference_penalty_value
                  (wget inp.constraint_weights "instructor_time_preference" 10)
                  π.preference_level,
                 Lit.var (.pref s.id iid p.id idx))) := by
      unfold pref_emit
      simp only [hmatch, Bool.not_true, Bool.false_eq_true, if_false]
      rw [if_neg hpv]
      simp [hassigned]
    have hmem2 := hmem _ (by rw [hsi]; exact hemit)
    have hcons := hsub _ hmem2 (consEqLits (Lit.var (.pref s.id iid p.id idx)) x)
      (by simp)
    have hcheck := satisfies_mem hsat hcons
    simp only [consEqLits, Cons.check, lsum, List.map_cons, List.map_nil, List.sum_cons,
      List.sum_nil, decide_eq_true_eq] at hcheck
    show Lit.eval σ (Lit.var (.pref s.id iid p.id idx)) = Lit.eval σ x * Lit.eval σ (Lit.const 1)
    rw [show Lit.eval σ (Lit.const 1) = 1 from rfl, mul_one]
    omega

/-- Claim C8: the matching predicate of the source coincides with the one
the specification words; under a non-zero configured base weight the
emitted penalty-term list coincides, term for term, with the
specification's description (weight +100·base for PROHIBITED, +2·base for
DISCOURAGED, −base for PREFERRED, −2·base for REQUIRED, NEUTRAL skipped;
one term per matching quadruple); and in every solution satisfying the
emitted side constraints the penalty indicator g equals
x_{s,p} · A_{s,i}, where A is the instructor variable for a candidate and
the constant 1 for a pre-assigned instructor. -/
theorem C8_instructor_preference_penalty_terms (inp : SolverInput)
    (hbase : wget inp.constraint_weights "instructor_time_preference" 10 ≠ 0)
    (hnd : (inp.sections.map Section.id).Nodup) :
    (∀ (p : MeetingPattern) (π : InstructorPreference),
      pattern_matches_preference p π = spec_matches p π)
    ∧ (add_instructor_preference_penalties inp (create_variables inp)).2
        = spec_pref_terms inp (create_variables inp)
    ∧ (∀ σ : Valuation,
        satisfies σ (add_instructor_preference_penalties inp (create_variables inp)).1 = true →
        ∀ s ∈ inp.sections,
        ∀ iid ∈ dedupFirst (s.assigned_instructor_ids ++ s.preferred_instructor_ids),
        ∀ instr : Instructor, inp.instructors.find? (fun i => i.id = iid) = some instr →
        ∀ p ∈ inp.meeting_patterns,
        ∀ x : Lit, dictGet (create_variables inp).sp (s.id, p.id) = some x →
        ∀ ip ∈ instr.time_preferences.enum,
          pattern_matches_preference p ip.2 = true →
          preference_penalty_value
              (wget inp.constraint_weights "instructor_time_preference" 10)
              ip.2.preference_level ≠ 0 →
          Lit.eval σ (Lit.var (.pref s.id iid p.id ip.1))
            = Lit.eval σ x * Lit.eval σ
                (match dictGet (create_variables inp).si (s.id, iid) with
                 | some w => w
                 | none => Lit.const 1)) :=
  ⟨matches_equiv,
   pref_terms_eq inp (create_variables inp) hbase,
   fun σ hsat s hs iid hiid instr hfind p hp x hx ip hip hmatch hpv =>
     pref_g_semantics inp hnd σ hsat s hs iid hiid instr hfind p hp x hx ip hip hmatch hpv⟩

/-- Witness of claim C8 at `c8Input` (default base weight 10): the
DISCOURAGED Monday-morning entry yields the +20 term on pattern 1 and the
PROHIBITED pattern-3 entry yields the +1000 term; the embedded and
specification-side term lists agree. -/
theorem C8_instructor_preference_penalty_terms_witness :
    (add_instructor_preference_penalties c8Input (create_variables c8Input)).2
      = spec_pref_terms c8Input (create_variables c8Input)
    ∧ (add_instructor_preference_penalties c8Input (create_variables c8Input)).2
      = [(20, Lit.var (.pref 10 7 1 0)), (1000, Lit.var (.pref 10 7 3 1))] :=
  ⟨(C8_instructor_preference_penalty_terms c8Input (by decide) (by decide)).2.1,
   by decide⟩

end Scheduler
